import Mathlib

/-!
# Challenge lifecycle of the LeetCode Telegram bot

A shallow embedding of `internal/models`, `internal/database` and the
lifecycle part of `internal/bot`.

Modelling conventions

* The SQLite store is a record of tables, each table the list of its rows in
  rowid order. Every method of `database.DB` becomes a function on that
  record; a method that returns a Go `error` returns `Except String _`.
* The store is taken to be available: a statement that reaches SQLite runs.
  The errors that remain are the ones the SQL semantics itself raises:
  `sql.ErrNoRows` when `Scan` finds no row. The one exception is
  `IncrementDayNumberTx`, which takes the failing call of the transaction
  as an explicit argument.
* `INSERT OR IGNORE` leaves the table as it is when the new row would break a
  `UNIQUE` / `PRIMARY KEY` constraint of the schema in `createTables`.
  Foreign keys are declared but not enforced (the connection is opened
  without the foreign-key pragma), so they put no condition on an insert.
* The timestamp columns (`created_at`, `submitted_at`, `posted_at`,
  `last_updated`) are written by the statements but read by no query whose
  result the program uses; they are left out of the rows.
* `ORDER BY RANDOM()` is resolved by an explicit number `r`; the wall clock
  (`time.Now()`) by explicit date strings.
* Go `int` is 64-bit: `currentDay + 1` wraps, see `wrapInt64`.
-/

namespace LeetcodeBot

/-! ## internal/models -/

/-- Go struct `models.Problem`; also the row type of table `problems`. -/
structure Problem where
  ID : Int
  Title : String
  URL : String
  Category : String
  Used : Bool
deriving DecidableEq

/-- Go struct `models.User` (without `CreatedAt`); row type of table `users`. -/
structure User where
  ID : Int
  Username : String
  FirstName : String
  LastName : String
deriving DecidableEq

/-- Go struct `models.Submission` (without `SubmittedAt`); row type of table
`submissions`. -/
structure Submission where
  ID : Int
  UserID : Int
  ProblemID : Int
  Date : String
deriving DecidableEq

/-- Go struct `models.DailyChallenge` (without `PostedAt`); row type of table
`daily_challenges`. -/
structure DailyChallenge where
  ID : Int
  ProblemID : Int
  Date : String
  DayNumber : Int
deriving DecidableEq

/-- One entry of a category in the YAML catalogue (`models.ProblemsData`). -/
structure YAMLProblem where
  Title : String
  URL : String
deriving DecidableEq

/-- Go type `models.ProblemsData`, a map from category to problems. The list
gives the categories in the order in which `range` visits them in one run. -/
abbrev ProblemsData := List (String × List YAMLProblem)

/-! ## internal/database -/

/-- The tables created by `createTables`. `challenge_counter` has at most one
row (`id INTEGER PRIMARY KEY CHECK (id = 1)`); the field holds its
`current_day`, or `none` while the row is missing. The three `_seq` fields
are the rows of SQLite's table `sqlite_sequence` for the three
`AUTOINCREMENT` tables: the largest rowid that an `INSERT` into the table has
drawn so far (0 before the first). -/
structure DB where
  problems : List Problem
  users : List User
  submissions : List Submission
  daily_challenges : List DailyChallenge
  challenge_counter : Option Int
  problems_seq : Int
  submissions_seq : Int
  daily_challenges_seq : Int
deriving DecidableEq

/-- The error `sql.ErrNoRows`, by its message. -/
def ErrNoRows : String := "sql: no rows in result set"

/-- Two's complement wrap-around of a Go `int` (64 bits). -/
def wrapInt64 (x : Int) : Int :=
  (x + 9223372036854775808) % 18446744073709551616 - 9223372036854775808

/-- The rowid that an `INSERT` into an `INTEGER PRIMARY KEY AUTOINCREMENT`
table draws: one more than the larger of the table's `sqlite_sequence` value
`seq` and the largest rowid present. SQLite draws it before it checks the
constraints and stores it in `sqlite_sequence` at the end of the statement,
also when `OR IGNORE` drops the row. -/
def nextRowID (seq : Int) (ids : List Int) : Int :=
  ids.foldl max seq + 1

/-- A store file that has no table yet. -/
def DB.empty : DB :=
  { problems := [], users := [], submissions := [], daily_challenges := [],
    challenge_counter := none, problems_seq := 0, submissions_seq := 0,
    daily_challenges_seq := 0 }

/-- `createTables`: `CREATE TABLE IF NOT EXISTS` keeps existing tables, then
`INSERT OR IGNORE INTO challenge_counter (id, current_day) VALUES (1, 9)`. -/
def createTables (db : DB) : Except String DB :=
  match db.challenge_counter with
  | none => .ok { db with challenge_counter := some 9 }
  | some _ => .ok db

/-- The rows of `problems` after the statement `INSERT OR IGNORE INTO problems
(title, url, category)`: `title` is `UNIQUE`, `used` takes its default
`FALSE`; `seq` is the `sqlite_sequence` value before the statement. -/
def insertProblem (seq : Int) (rows : List Problem) (title url category : String) :
    List Problem :=
  if ∃ p ∈ rows, p.Title = title then rows
  else rows ++ [{ ID := nextRowID seq (rows.map (fun p => p.ID)), Title := title, URL := url,
                  Category := category, Used := false }]

/-- The statement `INSERT OR IGNORE INTO problems (title, url, category)` on
the rows of `problems` and the `sqlite_sequence` value of the table. -/
def insertProblemStmt (st : List Problem × Int) (title url category : String) :
    List Problem × Int :=
  (insertProblem st.2 st.1 title url category, nextRowID st.2 (st.1.map (fun p => p.ID)))

/-- `AddProblem`. -/
def AddProblem (db : DB) (problem : Problem) : Except String DB :=
  .ok { db with
    problems := (insertProblemStmt (db.problems, db.problems_seq)
      problem.Title problem.URL problem.Category).1,
    problems_seq := (insertProblemStmt (db.problems, db.problems_seq)
      problem.Title problem.URL problem.Category).2 }

/-- `GetRandomUnusedProblem`: the rows with `used = FALSE`, one of them picked
by `r`. The columns `id, title, url, category` are scanned into a fresh
`models.Problem`, whose `Used` stays at its zero value. -/
def GetRandomUnusedProblem (db : DB) (r : Nat) : Except String Problem :=
  let rows := db.problems.filter (fun p => p.Used = false)
  match rows[r % rows.length]? with
  | none => .error ErrNoRows
  | some row => .ok { ID := row.ID, Title := row.Title, URL := row.URL,
                      Category := row.Category, Used := false }

/-- `MarkProblemAsUsed`: `UPDATE problems SET used = TRUE WHERE id = ?`. -/
def MarkProblemAsUsed (db : DB) (problemID : Int) : Except String DB :=
  .ok { db with problems :=
          db.problems.map (fun p => if p.ID = problemID then { p with Used := true } else p) }

/-- Position of a row in a table whose rowid is the `id` column. -/
def insertByRowID (u : User) : List User → List User
  | [] => [u]
  | v :: rest => if u.ID < v.ID then u :: v :: rest else v :: insertByRowID u rest

/-- `AddUser`: `INSERT OR REPLACE INTO users`, keyed by the primary key `id`. -/
def AddUser (db : DB) (user : User) : Except String DB :=
  .ok { db with users := insertByRowID user (db.users.filter (fun v => v.ID ≠ user.ID)) }

/-- `AddSubmission`: `INSERT OR IGNORE INTO submissions (user_id, problem_id,
date)` under `UNIQUE(user_id, problem_id, date)`. -/
def AddSubmission (db : DB) (submission : Submission) : Except String DB :=
  if ∃ s ∈ db.submissions, s.UserID = submission.UserID ∧
      s.ProblemID = submission.ProblemID ∧ s.Date = submission.Date then
    .ok { db with
      submissions_seq := nextRowID db.submissions_seq (db.submissions.map (fun s => s.ID)) }
  else .ok { db with
      submissions := db.submissions ++
        [{ ID := nextRowID db.submissions_seq (db.submissions.map (fun s => s.ID)),
           UserID := submission.UserID, ProblemID := submission.ProblemID,
           Date := submission.Date }],
      submissions_seq := nextRowID db.submissions_seq (db.submissions.map (fun s => s.ID)) }

/-- `HasUserSubmittedToday`: `SELECT COUNT(*) ... WHERE user_id = ? AND date = ?`
and `count > 0`. -/
def HasUserSubmittedToday (db : DB) (userID : Int) (date : String) : Except String Bool :=
  let count := (db.submissions.filter (fun s => s.UserID = userID ∧ s.Date = date)).length
  .ok (decide (count > 0))

/-- `AddDailyChallenge`: `INSERT OR IGNORE INTO daily_challenges (problem_id,
date, day_number)` under `date TEXT NOT NULL UNIQUE`. -/
def AddDailyChallenge (db : DB) (challenge : DailyChallenge) : Except String DB :=
  if ∃ c ∈ db.daily_challenges, c.Date = challenge.Date then
    .ok { db with
      daily_challenges_seq :=
        nextRowID db.daily_challenges_seq (db.daily_challenges.map (fun c => c.ID)) }
  else .ok { db with
      daily_challenges := db.daily_challenges ++
        [{ ID := nextRowID db.daily_challenges_seq (db.daily_challenges.map (fun c => c.ID)),
           ProblemID := challenge.ProblemID, Date := challenge.Date,
           DayNumber := challenge.DayNumber }],
      daily_challenges_seq :=
        nextRowID db.daily_challenges_seq (db.daily_challenges.map (fun c => c.ID)) }

/-- `GetCurrentDayNumber`: the Go function returns a value together with the
error (`return 9, err`), so the model returns both. -/
def GetCurrentDayNumber (db : DB) : Int × Option String :=
  match db.challenge_counter with
  | none => (9, some ErrNoRows)
  | some dayNumber => (dayNumber, none)

/-- `IncrementDayNumber`: read `current_day`, write `currentDay + 1`, commit. -/
def IncrementDayNumber (db : DB) : Except String (Int × DB) :=
  match db.challenge_counter with
  | none => .error ErrNoRows
  | some currentDay =>
    let newDay := wrapInt64 (currentDay + 1)
    .ok (newDay, { db with challenge_counter := some newDay })

/-- `ResetDayNumber`: `UPDATE challenge_counter SET current_day = 8 WHERE id = 1`. -/
def ResetDayNumber (db : DB) : Except String DB :=
  .ok { db with challenge_counter := db.challenge_counter.map (fun _ => 8) }

/-- The rows of `problems p JOIN daily_challenges dc ON p.id = dc.problem_id
WHERE dc.date = ?`, with the columns `p.id, p.title, p.url, p.category,
dc.day_number`. -/
def challengeRows (db : DB) (date : String) : List (Problem × Int) :=
  (db.daily_challenges.filter (fun dc => dc.Date = date)).flatMap (fun dc =>
    (db.problems.filter (fun p => p.ID = dc.ProblemID)).map (fun p =>
      ({ ID := p.ID, Title := p.Title, URL := p.URL, Category := p.Category,
         Used := false }, dc.DayNumber)))

/-- `GetTodaysChallengeWithDay`: `QueryRow` takes the first row of the join. -/
def GetTodaysChallengeWithDay (db : DB) (date : String) : Except String (Problem × Int) :=
  match challengeRows db date with
  | [] => .error ErrNoRows
  | row :: _ => .ok row

/-- `LoadProblemsFromYAML`: one `INSERT OR IGNORE` per catalogue entry, in
one transaction. -/
def LoadProblemsFromYAML (db : DB) (problems : ProblemsData) : Except String DB :=
  let st := problems.foldl (fun st entry =>
    entry.2.foldl (fun st problem =>
      insertProblemStmt st problem.Title problem.URL entry.1) st) (db.problems, db.problems_seq)
  .ok { db with problems := st.1, problems_seq := st.2 }

/-- Go struct `models.LeaderboardEntry`. -/
structure LeaderboardEntry where
  UserID : Int
  Username : String
  FirstName : String
  LastName : String
  TotalSolved : Int
deriving DecidableEq

/-- The rows of `users u LEFT JOIN submissions s ON u.id = s.user_id`, as the
`users` row with `s.id`, or with `NULL` for a user without submissions. -/
def leaderboardJoin (db : DB) : List (User × Option Int) :=
  db.users.flatMap (fun u =>
    if db.submissions.filter (fun s => s.UserID = u.ID) = [] then [(u, none)]
    else (db.submissions.filter (fun s => s.UserID = u.ID)).map (fun s => (u, some s.ID)))

/-- The result of `GROUP BY u.id, u.username, u.first_name, u.last_name` with
`COUNT(s.id)`: the left join keeps every `users` row, so the groups are the
distinct `users` rows; `COUNT` counts the joined rows of the group whose
`s.id` is not `NULL`. -/
def leaderboardGroups (db : DB) : List LeaderboardEntry :=
  db.users.dedup.map (fun u =>
    { UserID := u.ID, Username := u.Username, FirstName := u.FirstName, LastName := u.LastName,
      TotalSolved := ((leaderboardJoin db).filter (fun row => row.1 = u ∧ row.2.isSome)).length })

/-- The order `ORDER BY total_solved DESC, u.first_name ASC`: `a` may stand
before `b`. Text is compared code point by code point, which is the order of
SQLite's default collation. -/
def leaderboardOrder (a b : LeaderboardEntry) : Prop :=
  b.TotalSolved < a.TotalSolved ∨ (a.TotalSolved = b.TotalSolved ∧ a.FirstName ≤ b.FirstName)

instance leaderboardOrderDecidable : DecidableRel leaderboardOrder :=
  fun a b => by unfold leaderboardOrder; infer_instance

instance leaderboardOrderTotal : IsTotal LeaderboardEntry leaderboardOrder where
  total a b := by
    unfold leaderboardOrder
    rcases lt_trichotomy a.TotalSolved b.TotalSolved with h | h | h
    · exact Or.inr (Or.inl h)
    · rcases le_total a.FirstName b.FirstName with h2 | h2
      · exact Or.inl (Or.inr ⟨h, h2⟩)
      · exact Or.inr (Or.inr ⟨h.symm, h2⟩)
    · exact Or.inl (Or.inl h)

instance leaderboardOrderTrans : IsTrans LeaderboardEntry leaderboardOrder where
  trans a b c := by
    unfold leaderboardOrder
    rintro (h1 | ⟨h1, h2⟩) (h3 | ⟨h3, h4⟩)
    · exact Or.inl (lt_trans h3 h1)
    · exact Or.inl (h3 ▸ h1)
    · exact Or.inl (h1 ▸ h3)
    · exact Or.inr ⟨h1.trans h3, le_trans h2 h4⟩

/-- `GetLeaderboard`: the groups in the order of `ORDER BY`, cut by `LIMIT ?`
(a negative limit means no limit in SQLite). Rows that `ORDER BY` does not
separate come in an order that SQL leaves open; the model sorts stably. -/
def GetLeaderboard (db : DB) (limit : Int) : Except String (List LeaderboardEntry) :=
  let sorted := (leaderboardGroups db).insertionSort leaderboardOrder
  .ok (if limit < 0 then sorted else sorted.take limit.toNat)

/-- `GetUsersWhoDidntSubmitToday`: the `users` rows whose id is not in
`SELECT DISTINCT user_id FROM submissions WHERE date = ?`. -/
def GetUsersWhoDidntSubmitToday (db : DB) (date : String) : Except String (List User) :=
  let submitted := ((db.submissions.filter (fun s => s.Date = date)).map (fun s => s.UserID)).dedup
  .ok (db.users.filter (fun u => u.ID ∉ submitted))

/-- The calls of `IncrementDayNumber` to the store, each of which can fail. -/
inductive TxStep where
  | Begin
  | QueryRow
  | Exec
  | Commit
deriving DecidableEq

/-- `IncrementDayNumber` on a store that may fail: `fault` names the call that
fails and the error it returns, `none` is the store that works. The
transaction works on a copy `tx`; `Commit` installs it, and every early
return runs the deferred `tx.Rollback()`, which keeps the store `db`. The
first component is the Go result (`0, err` becomes `.error err`), the second
the store after the call. -/
def IncrementDayNumberTx (db : DB) (fault : Option (TxStep × String)) :
    Except String Int × DB :=
  match fault with
  | some (.Begin, err) => (.error err, db)
  | other =>
    let tx := db
    match other with
    | some (.QueryRow, err) => (.error err, db)
    | other =>
      match tx.challenge_counter with
      | none => (.error ErrNoRows, db)
      | some currentDay =>
        let newDay := wrapInt64 (currentDay + 1)
        match other with
        | some (.Exec, err) => (.error err, db)
        | other =>
          let tx1 : DB := { tx with challenge_counter := some newDay }
          match other with
          | some (.Commit, err) => (.error err, db)
          | _ => (.ok newDay, tx1)

/-- The values returned by `k` calls of `IncrementDayNumber` in a row, oldest
first, and the store after them; the calls stop at the first error. -/
def incrementTimes : Nat → DB → List Int × DB
  | 0, db => ([], db)
  | k + 1, db =>
    match IncrementDayNumber db with
    | .error _ => ([], db)
    | .ok (newDay, db1) => (newDay :: (incrementTimes k db1).1, (incrementTimes k db1).2)

/-! ## internal/config and internal/bot -/

/-- The part of `config.Config` that the bot reads. -/
structure Config where
  TelegramGroupID : Int
deriving DecidableEq

/-- Sender of a Telegram message (`tgbotapi.User`). -/
structure TgUser where
  ID : Int
  UserName : String
  FirstName : String
  LastName : String
deriving DecidableEq

/-- Chat of a Telegram message (`tgbotapi.Chat`). -/
structure TgChat where
  ID : Int
deriving DecidableEq

/-- The fields of `tgbotapi.Message` that the handlers read. `IsCommand` and
`Command` hold the results of the library methods `IsCommand()` and
`Command()` of the message. -/
structure Message where
  From : TgUser
  Chat : TgChat
  IsCommand : Bool := false
  Command : String := ""
deriving DecidableEq

/-- The bot: its store, its configuration, and the messages handed to the
Telegram API so far (chat id and text), oldest first. -/
structure Bot where
  db : DB
  config : Config
  sent : List (Int × String)
deriving DecidableEq

/-- `sendMessage`: hands one message to the Telegram API. -/
def sendMessage (b : Bot) (chatID : Int) (text : String) : Bot :=
  { b with sent := b.sent ++ [(chatID, text)] }

/-- Reply of `/submit` when the user already has a submission for the date. -/
def alreadySubmittedText : String := "✅ You have already submitted today's challenge!"

/-- Reply of `/submit` when no challenge is found for the date. -/
def noChallengeText : String := "❌ No challenge available for today yet."

/-- Reply of `/submit` after the submission was added. -/
def submittedText (dayNumber : Int) (todaysChallenge : Problem) : String :=
  "🎉 Great job! You've successfully submitted Day " ++ toString dayNumber ++ " challenge:\n\n" ++
  "📝 **" ++ todaysChallenge.Title ++ "**\n" ++
  "🔗 " ++ todaysChallenge.URL ++ "\n\n" ++
  "Keep up the good work! 💪"

/-- `handleSubmitCommand`, with `today` the formatted value of `time.Now()`. -/
def handleSubmitCommand (b : Bot) (message : Message) (today : String) : Bot :=
  match HasUserSubmittedToday b.db message.From.ID today with
  | .error _ =>
    sendMessage b message.Chat.ID "❌ An error occurred while checking your submission."
  | .ok hasSubmitted =>
    if hasSubmitted then sendMessage b message.Chat.ID alreadySubmittedText
    else
      match GetTodaysChallengeWithDay b.db today with
      | .error _ => sendMessage b message.Chat.ID noChallengeText
      | .ok (todaysChallenge, dayNumber) =>
        match AddSubmission b.db { ID := 0, UserID := message.From.ID,
                                   ProblemID := todaysChallenge.ID, Date := today } with
        | .error _ => sendMessage b message.Chat.ID "❌ An error occurred while submitting."
        | .ok db1 =>
          sendMessage { b with db := db1 } message.Chat.ID
            (submittedText dayNumber todaysChallenge)

/-- Announcement text of `PostDailyChallenge`; `longDate` is
`time.Now().Format("January 2, 2006")`. -/
def challengeText (dayNumber : Int) (longDate : String) (problem : Problem) : String :=
  "🌅 **Daily LeetCode Challenge - Day " ++ toString dayNumber ++ "** 🌅\n" ++
  "📅 " ++ longDate ++ "\n\n" ++
  "📝 **" ++ problem.Title ++ "**\n" ++
  "🏷️ Category: " ++ problem.Category ++ "\n" ++
  "🔗 " ++ problem.URL ++ "\n\n" ++
  "💪 Ready to solve it? Use /submit when you're done!\n" ++
  "Good luck everyone! 🍀"

/-- `PostDailyChallenge`: the returned `Option String` is the Go `error`
(`none` for `nil`); `r` resolves the random choice, `today` and `longDate`
are the two formats of `time.Now()`. -/
def PostDailyChallenge (b : Bot) (r : Nat) (today longDate : String) : Option String × Bot :=
  match GetRandomUnusedProblem b.db r with
  | .error err => (some ("failed to get random problem: " ++ err), b)
  | .ok problem =>
    match MarkProblemAsUsed b.db problem.ID with
    | .error err => (some ("failed to mark problem as used: " ++ err), b)
    | .ok db1 =>
      match IncrementDayNumber db1 with
      | .error err => (some ("failed to increment day number: " ++ err), { b with db := db1 })
      | .ok (dayNumber, db2) =>
        match AddDailyChallenge db2 { ID := 0, ProblemID := problem.ID, Date := today,
                                      DayNumber := dayNumber } with
        | .error err => (some ("failed to add daily challenge: " ++ err), { b with db := db2 })
        | .ok db3 =>
          (none, sendMessage { b with db := db3 } b.config.TelegramGroupID
                   (challengeText dayNumber longDate problem))

/-- Replaces the store of the bot by the result of a store method, and keeps
it when the method returns an error. -/
def Bot.withDB (b : Bot) (res : Except String DB) : Bot :=
  match res with
  | .ok db => { b with db := db }
  | .error _ => b

/-- Reply to a command that `handleMessage` does not know. -/
def unknownCommandText : String := "Unknown command. Use /help to see available commands."

/-- Reply of the admin commands outside the main group. -/
def groupOnlyText : String := "❌ This command can only be used in the main group."

/-- Rank marker of `handleLeaderboardCommand` for the entry at index `i`. -/
def rankEmoji (i : Nat) : String :=
  match i with
  | 0 => "🥇"
  | 1 => "🥈"
  | 2 => "🥉"
  | _ => toString (i + 1) ++ "."

/-- Display name of `handleLeaderboardCommand` for an entry. -/
def entryName (entry : LeaderboardEntry) : String :=
  let name := entry.FirstName
  let name := if entry.LastName ≠ "" then name ++ " " ++ entry.LastName else name
  if entry.Username ≠ "" then name ++ " (@" ++ entry.Username ++ ")" else name

/-- `handleLeaderboardCommand`. -/
def handleLeaderboardCommand (b : Bot) (message : Message) : Bot :=
  match GetLeaderboard b.db 10 with
  | .error _ =>
    sendMessage b message.Chat.ID "❌ An error occurred while fetching the leaderboard."
  | .ok leaderboard =>
    if leaderboard.length = 0 then
      sendMessage b message.Chat.ID "📊 No submissions yet! Be the first to submit a challenge."
    else
      sendMessage b message.Chat.ID
        ("🏆 **LeetCode Challenge Leaderboard** 🏆\n\n" ++
         String.join (leaderboard.enum.map (fun ie =>
           rankEmoji ie.1 ++ " " ++ entryName ie.2 ++ " - " ++ toString ie.2.TotalSolved ++
             " solved\n")) ++
         "\n💪 Keep solving to climb the ranks!")

/-- Text of `handleHelpCommand`. -/
def helpText : String :=
  "🤖 **LeetCode Challenge Bot Help**\n" ++
  "\n" ++
  "Available commands:\n" ++
  "• /submit - Submit today's challenge\n" ++
  "• /leaderboards - View the leaderboard\n" ++
  "• /status - Show bot status and current day info\n" ++
  "• /help - Show this help message\n" ++
  "\n" ++
  "**Admin Commands (Group only):**\n" ++
  "• /manual - Manually post daily challenge immediately\n" ++
  "• /testreminder - Test reminder functionality\n" ++
  "• /resetday - Reset day counter (next challenge will be Day 9)\n" ++
  "\n" ++
  "📅 **How it works:**\n" ++
  "- Every weekday (Monday to Friday) at 7:00 AM, I post a new LeetCode challenge\n" ++
  "- Challenge numbering starts from Day 9\n" ++
  "- Use /submit to mark that you've completed it\n" ++
  "- Check /leaderboards to see who's solving the most problems\n" ++
  "- I'll remind you at 3:00 PM and 10:00 PM if you haven't submitted yet\n" ++
  "- No challenges on weekends (Saturday & Sunday) 🎉\n" ++
  "\n" ++
  "Happy coding! 💻✨"

/-- `handleHelpCommand`. -/
def handleHelpCommand (b : Bot) (message : Message) : Bot :=
  sendMessage b message.Chat.ID helpText

/-- `handleManualCommand`. -/
def handleManualCommand (b : Bot) (message : Message) (r : Nat) (today longDate : String) : Bot :=
  if message.From.ID ≠ b.config.TelegramGroupID ∧ message.Chat.ID ≠ b.config.TelegramGroupID then
    sendMessage b message.Chat.ID groupOnlyText
  else
    match PostDailyChallenge (sendMessage b message.Chat.ID "📝 Manually posting daily challenge...")
        r today longDate with
    | (some err, b1) =>
      sendMessage b1 message.Chat.ID ("❌ Error posting manual challenge: " ++ err)
    | (none, b1) => sendMessage b1 message.Chat.ID "✅ Manual challenge posted successfully!"

/-- `SendReminder`, with `today` and `currentHour` read from `time.Now()`. -/
def SendReminder (b : Bot) (today : String) (currentHour : Nat) : Option String × Bot :=
  match GetUsersWhoDidntSubmitToday b.db today with
  | .error err => (some ("failed to get users who didn't submit: " ++ err), b)
  | .ok users =>
    if users.length = 0 then (none, b)
    else
      match GetTodaysChallengeWithDay b.db today with
      | .error err => (some ("failed to get today's challenge: " ++ err), b)
      | .ok (todaysChallenge, dayNumber) =>
        let mentions := users.map (fun user =>
          if user.Username ≠ "" then "@" ++ user.Username else user.FirstName)
        let reminderEmoji := if currentHour = 15 then "⏰" else "🌙"
        let reminderTime := if currentHour = 15 then "Afternoon" else "Evening"
        (none, sendMessage b b.config.TelegramGroupID
          (reminderEmoji ++ " **" ++ reminderTime ++ " Reminder** " ++ reminderEmoji ++ "\n\n" ++
           "Hey " ++ String.intercalate ", " mentions ++ "!\n\n" ++
           "Don't forget about today's LeetCode challenge (Day " ++ toString dayNumber ++ "):\n" ++
           "📝 **" ++ todaysChallenge.Title ++ "**\n" ++
           "🔗 " ++ todaysChallenge.URL ++ "\n\n" ++
           "Use /submit when you're done! ⚡"))

/-- `handleTestReminderCommand`. -/
def handleTestReminderCommand (b : Bot) (message : Message) (today : String)
    (currentHour : Nat) : Bot :=
  if message.From.ID ≠ b.config.TelegramGroupID ∧ message.Chat.ID ≠ b.config.TelegramGroupID then
    sendMessage b message.Chat.ID groupOnlyText
  else
    match SendReminder (sendMessage b message.Chat.ID "🧪 Testing reminder...") today
        currentHour with
    | (some err, b1) => sendMessage b1 message.Chat.ID ("❌ Error sending test reminder: " ++ err)
    | (none, b1) => sendMessage b1 message.Chat.ID "✅ Test reminder sent successfully!"

/-- `handleStatusCommand`; `longDate` is `time.Now().Format("January 2, 2006")`. -/
def handleStatusCommand (b : Bot) (message : Message) (today longDate : String) : Bot :=
  let currentDay : Int :=
    match GetCurrentDayNumber b.db with
    | (_, some _) => 0
    | (dayNumber, none) => dayNumber
  let challengeStatus :=
    match GetTodaysChallengeWithDay b.db today with
    | .error _ => "❌ No challenge posted today"
    | .ok (todaysChallenge, dayNumber) =>
      "✅ Day " ++ toString dayNumber ++ ": " ++ todaysChallenge.Title
  let leaderboardStatus :=
    match GetLeaderboard b.db 3 with
    | .error _ => "No submissions yet"
    | .ok [] => "No submissions yet"
    | .ok (top :: _) =>
      "Top: " ++ top.FirstName ++ " (" ++ toString top.TotalSolved ++ " solved)"
  let submissionStatus :=
    match GetUsersWhoDidntSubmitToday b.db today with
    | .error _ => "Error checking submissions"
    | .ok usersNotSubmitted =>
      toString usersNotSubmitted.length ++ " users haven't submitted today"
  sendMessage b message.Chat.ID
    ("🤖 **Bot Status** 🤖\n\n" ++
     "📅 Date: " ++ longDate ++ "\n" ++
     "📊 Current Day Counter: " ++ toString currentDay ++ "\n" ++
     "🎯 Today's Challenge: " ++ challengeStatus ++ "\n" ++
     "📈 Leaderboard: " ++ leaderboardStatus ++ "\n" ++
     "📝 Submissions: " ++ submissionStatus ++ "\n\n" ++
     "⏰ Next challenge: Tomorrow 7:00 AM (Mon-Fri only)\n" ++
     "🎉 Weekend: No challenges")

/-- `handleResetDayCommand`. -/
def handleResetDayCommand (b : Bot) (message : Message) : Bot :=
  if message.From.ID ≠ b.config.TelegramGroupID ∧ message.Chat.ID ≠ b.config.TelegramGroupID then
    sendMessage b message.Chat.ID groupOnlyText
  else
    match ResetDayNumber b.db with
    | .error _ =>
      sendMessage b message.Chat.ID "❌ An error occurred while resetting the day counter."
    | .ok db1 =>
      sendMessage { b with db := db1 } message.Chat.ID
        "✅ Day counter reset successfully! Next challenge will be Day 9."

/-- `handleMessage`: saves the sender, then runs the handler of the command.
`r`, `today`, `longDate` and `currentHour` are the random choice and the
clock readings that the handlers take. -/
def handleMessage (b : Bot) (message : Message) (r : Nat) (today longDate : String)
    (currentHour : Nat) : Bot :=
  let b1 := b.withDB (AddUser b.db
    { ID := message.From.ID, Username := message.From.UserName,
      FirstName := message.From.FirstName, LastName := message.From.LastName })
  if message.IsCommand then
    if message.Command = "submit" then handleSubmitCommand b1 message today
    else if message.Command = "leaderboards" then handleLeaderboardCommand b1 message
    else if message.Command = "help" then handleHelpCommand b1 message
    else if message.Command = "manual" then handleManualCommand b1 message r today longDate
    else if message.Command = "testreminder" then
      handleTestReminderCommand b1 message today currentHour
    else if message.Command = "status" then handleStatusCommand b1 message today longDate
    else if message.Command = "resetday" then handleResetDayCommand b1 message
    else sendMessage b1 message.Chat.ID unknownCommandText
  else b1

/-! ## Sequential runs of the store operations -/

/-- The operations of `internal/bot` and `internal/database` that write to
the tables modelled here. (The scheduler also calls `bot.CheckSubmissions`,
which is not among them.) -/
inductive Op where
  | PostDailyChallenge (r : Nat) (today longDate : String)
  | handleSubmitCommand (message : Message) (today : String)
  | ResetDayNumber
  | AddUser (user : User)
  | AddProblem (problem : Problem)
  | LoadProblemsFromYAML (problems : ProblemsData)

/-- One operation, run to completion. -/
def step (b : Bot) : Op → Bot
  | .PostDailyChallenge r today longDate => (PostDailyChallenge b r today longDate).2
  | .handleSubmitCommand message today => handleSubmitCommand b message today
  | .ResetDayNumber => b.withDB (ResetDayNumber b.db)
  | .AddUser user => b.withDB (AddUser b.db user)
  | .AddProblem problem => b.withDB (AddProblem b.db problem)
  | .LoadProblemsFromYAML problems => b.withDB (LoadProblemsFromYAML b.db problems)

/-- A sequential run: the operations one after the other. -/
def run (b : Bot) (ops : List Op) : Bot :=
  ops.foldl step b

/-- The bot right after `database.New` on a store file without tables. -/
def freshBot (config : Config) : Bot :=
  (({ db := DB.empty, config := config, sent := [] } : Bot)).withDB (createTables DB.empty)

/-! ## Constraints of the schema -/

/-- Number of rows of `submissions` for a user and a date. -/
def rowsOfUserDate (rows : List Submission) (userID : Int) (date : String) : Nat :=
  (rows.filter (fun s => s.UserID = userID ∧ s.Date = date)).length

/-- Number of rows of `submissions` for a user, a problem and a date. -/
def rowsOfUserProblemDate (rows : List Submission) (userID problemID : Int)
    (date : String) : Nat :=
  (rows.filter (fun s => s.UserID = userID ∧ s.ProblemID = problemID ∧ s.Date = date)).length

/-- The table constraint `UNIQUE(user_id, problem_id, date)` of `submissions`. -/
def submissionsUnique (rows : List Submission) : Prop :=
  ∀ userID problemID date, rowsOfUserProblemDate rows userID problemID date ≤ 1

/-! ## Relations between two states of the pool -/

/-- The row `after` is the row `before` at a later time: same id, title, url
and category, and `used` has not gone from true back to false. -/
def rowKept (before after : Problem) : Prop :=
  after.ID = before.ID ∧ after.Title = before.Title ∧ after.URL = before.URL ∧
    after.Category = before.Category ∧ (before.Used = true → after.Used = true)

/-- Every row of `before` is still there in `after`, at its position, with
`used` still set if it was set. -/
def poolKept (before after : List Problem) : Prop :=
  ∀ (i : Nat) (p : Problem), before[i]? = some p → ∃ q, after[i]? = some q ∧ rowKept p q

/-- The problem with this id has been consumed: it has a row, and every row
with this id has `used = true`. -/
def consumed (rows : List Problem) (problemID : Int) : Prop :=
  (∃ p ∈ rows, p.ID = problemID) ∧ ∀ p ∈ rows, p.ID = problemID → p.Used = true

/-- The two statements of the program that write to `problems`. -/
inductive PoolStep : List Problem → List Problem → Prop where
  | mark (rows : List Problem) (problemID : Int) :
      PoolStep rows (rows.map (fun p => if p.ID = problemID then { p with Used := true } else p))
  | insert (rows : List Problem) (seq : Int) (title url category : String) :
      PoolStep rows (insertProblem seq rows title url category)

/-- Every row of the ledger has a date for which the registry has a row. -/
def ledgerWithinRegistry (db : DB) : Prop :=
  ∀ s ∈ db.submissions, ∃ c ∈ db.daily_challenges, c.Date = s.Date

/-! ## The reminder and the leaderboard, in the words of the specification -/

/-- Specification of the reminder targets: the roster minus the users that
have a ledger row for the date, in roster order. -/
def NonResponders (date : String) (roster : List User) (ledger : List Submission) : List User :=
  roster.filter (fun u => ¬ ∃ s ∈ ledger, s.UserID = u.ID ∧ s.Date = date)

/-- No user has two ledger rows for one date. -/
def oneRowPerUserDate (db : DB) : Prop :=
  ∀ userID date, rowsOfUserDate db.submissions userID date ≤ 1

/-- Number of ledger rows of a user. -/
def submissionCount (db : DB) (userID : Int) : Nat :=
  (db.submissions.filter (fun s => s.UserID = userID)).length

/-- Number of distinct dates for which a user has a ledger row. -/
def distinctDates (db : DB) (userID : Int) : Nat :=
  ((db.submissions.filter (fun s => s.UserID = userID)).map (fun s => s.Date)).dedup.length

/-- The leaderboard entry of a `users` row: its fields, with the number of
ledger rows of the user. -/
def entryOf (db : DB) (u : User) : LeaderboardEntry :=
  { UserID := u.ID, Username := u.Username, FirstName := u.FirstName, LastName := u.LastName,
    TotalSolved := submissionCount db u.ID }

/-- The table constraint `id INTEGER PRIMARY KEY` of `users`. -/
def usersUnique (rows : List User) : Prop :=
  (rows.map (fun u => u.ID)).Nodup

/-! ## Concrete stores used as examples -/

/-- A catalogue problem that has been posted. -/
def twoSum : Problem :=
  { ID := 1, Title := "Two Sum", URL := "https://leetcode.com/problems/two-sum/",
    Category := "Array", Used := true }

/-- A catalogue problem that has not been posted. -/
def validAnagram : Problem :=
  { ID := 2, Title := "Valid Anagram", URL := "https://leetcode.com/problems/valid-anagram/",
    Category := "String", Used := false }

/-- A store in which `twoSum` is the challenge of 2024-01-10 with day number
10, nobody has submitted, and `validAnagram` is unused. -/
def postedDB : DB :=
  { problems := [twoSum, validAnagram],
    users := [],
    submissions := [],
    daily_challenges := [{ ID := 1, ProblemID := 1, Date := "2024-01-10", DayNumber := 10 }],
    challenge_counter := some 10,
    problems_seq := 2, submissions_seq := 0, daily_challenges_seq := 1 }

/-- A bot on `postedDB` whose group chat is -100. -/
def postedBot : Bot :=
  { db := postedDB, config := { TelegramGroupID := -100 }, sent := [] }

/-- A message of user 7 in chat -100. -/
def aliceMessage : Message :=
  { From := { ID := 7, UserName := "alice", FirstName := "Alice", LastName := "" },
    Chat := { ID := -100 } }

/-- A catalogue with one category and one problem. -/
def smallCatalogue : ProblemsData :=
  [("Array", [{ Title := "Two Sum", URL := "https://leetcode.com/problems/two-sum/" }])]

/-- A store with two unused problems and nothing else. -/
def twoProblemDB : DB :=
  { problems := [{ twoSum with Used := false }, validAnagram],
    users := [], submissions := [], daily_challenges := [], challenge_counter := some 9,
    problems_seq := 2, submissions_seq := 0, daily_challenges_seq := 0 }

/-- Roster member U1. -/
def userU1 : User := { ID := 1, Username := "u1", FirstName := "Ursula", LastName := "One" }

/-- Roster member U2. -/
def userU2 : User := { ID := 2, Username := "", FirstName := "Uwe", LastName := "" }

/-- Roster member U3. -/
def userU3 : User := { ID := 3, Username := "u3", FirstName := "Una", LastName := "Three" }

/-- The store `postedDB` with the roster U1, U2, U3, of which only U1 has
submitted on 2024-01-10. -/
def rosterDB : DB :=
  { postedDB with
    users := [userU1, userU2, userU3],
    submissions := [{ ID := 1, UserID := 1, ProblemID := 1, Date := "2024-01-10" }],
    submissions_seq := 1 }

/-- Participant C, first in the table. -/
def userC : User := { ID := 1, Username := "carol", FirstName := "Carol", LastName := "" }

/-- Participant B. -/
def userB : User := { ID := 2, Username := "bob", FirstName := "Bob", LastName := "" }

/-- Participant A, last in the table. -/
def userA : User := { ID := 3, Username := "alice", FirstName := "Alice", LastName := "" }

/-- A ledger row of a user for a problem and a day of January 2024. -/
def ledgerRow (rowID userID problemID : Int) (date : String) : Submission :=
  { ID := rowID, UserID := userID, ProblemID := problemID, Date := date }

/-- A store in which A and B have five submissions each and C has two. -/
def rankDB : DB :=
  { problems := [], daily_challenges := [], challenge_counter := some 14,
    problems_seq := 0, submissions_seq := 12, daily_challenges_seq := 0,
    users := [userC, userB, userA],
    submissions :=
      [ledgerRow 1 3 1 "2024-01-08", ledgerRow 2 2 1 "2024-01-08", ledgerRow 3 1 1 "2024-01-08",
       ledgerRow 4 2 2 "2024-01-09", ledgerRow 5 3 2 "2024-01-09", ledgerRow 6 1 2 "2024-01-09",
       ledgerRow 7 3 3 "2024-01-10", ledgerRow 8 2 3 "2024-01-10",
       ledgerRow 9 2 4 "2024-01-11", ledgerRow 10 3 4 "2024-01-11",
       ledgerRow 11 3 5 "2024-01-12", ledgerRow 12 2 5 "2024-01-12"] }

/-- A store whose ledger has two rows of user 7 for one date, for different
problems. -/
def twoRowsDB : DB :=
  { problems := [], daily_challenges := [], challenge_counter := some 9,
    problems_seq := 0, submissions_seq := 2, daily_challenges_seq := 0,
    users := [{ ID := 7, Username := "alice", FirstName := "Alice", LastName := "" }],
    submissions := [ledgerRow 1 7 1 "2024-01-10", ledgerRow 2 7 2 "2024-01-10"] }

/-- The command `/foo` of user 7 in chat -100. -/
def fooMessage : Message :=
  { aliceMessage with IsCommand := true, Command := "foo" }

/-- A command of user 7 in the private chat 7, for a bot whose group is -100. -/
def privateMessage : Message :=
  { From := { ID := 7, UserName := "alice", FirstName := "Alice", LastName := "" },
    Chat := { ID := 7 }, IsCommand := true, Command := "resetday" }

/-- The store `postedDB` after the last problem has been used as well. -/
def exhaustedDB : DB :=
  { postedDB with problems := [twoSum, { validAnagram with Used := true }] }

/-- The store `postedDB` with the day counter at the largest 64-bit value. -/
def maxCounterDB : DB :=
  { postedDB with challenge_counter := some 9223372036854775807 }

/-- A bot on `twoProblemDB` whose group chat is -100. -/
def twoProblemBot : Bot :=
  { db := twoProblemDB, config := { TelegramGroupID := -100 }, sent := [] }

/-- The store `postedDB` with a ledger row of user 7 for 2024-01-11, a date
without a row in the registry. -/
def orphanRowDB : DB :=
  { postedDB with
    submissions := [{ ID := 1, UserID := 7, ProblemID := 1, Date := "2024-01-11" }],
    submissions_seq := 1 }

/-! ## Properties of the store methods -/

theorem hasUserSubmittedToday_eq (db : DB) (userID : Int) (date : String) :
    HasUserSubmittedToday db userID date =
      .ok (decide (∃ s ∈ db.submissions, s.UserID = userID ∧ s.Date = date)) := by
  unfold HasUserSubmittedToday
  simp only [gt_iff_lt, List.length_pos, ne_eq, List.filter_eq_nil_iff, decide_eq_true_eq]
  congr 1
  simp

theorem handleSubmitCommand_already (b : Bot) (message : Message) (today : String)
    (h : ∃ s ∈ b.db.submissions, s.UserID = message.From.ID ∧ s.Date = today) :
    handleSubmitCommand b message today = sendMessage b message.Chat.ID alreadySubmittedText := by
  unfold handleSubmitCommand
  rw [hasUserSubmittedToday_eq]
  simp [h]

theorem handleSubmitCommand_noChallenge (b : Bot) (message : Message) (today : String)
    (h : ¬ ∃ s ∈ b.db.submissions, s.UserID = message.From.ID ∧ s.Date = today)
    (hreg : challengeRows b.db today = []) :
    handleSubmitCommand b message today = sendMessage b message.Chat.ID noChallengeText := by
  unfold handleSubmitCommand
  rw [hasUserSubmittedToday_eq]
  simp [h, GetTodaysChallengeWithDay, hreg]

theorem handleSubmitCommand_recorded (b : Bot) (message : Message) (today : String)
    (problem : Problem) (dayNumber : Int)
    (h : ¬ ∃ s ∈ b.db.submissions, s.UserID = message.From.ID ∧ s.Date = today)
    (hreg : GetTodaysChallengeWithDay b.db today = .ok (problem, dayNumber)) :
    handleSubmitCommand b message today =
      sendMessage { b with db := { b.db with
          submissions := b.db.submissions ++
            [{ ID := nextRowID b.db.submissions_seq (b.db.submissions.map (fun s => s.ID)),
               UserID := message.From.ID, ProblemID := problem.ID, Date := today }],
          submissions_seq :=
            nextRowID b.db.submissions_seq (b.db.submissions.map (fun s => s.ID)) } }
        message.Chat.ID (submittedText dayNumber problem) := by
  have h2 : ¬ ∃ s ∈ b.db.submissions, s.UserID = message.From.ID ∧
      s.ProblemID = problem.ID ∧ s.Date = today := by
    rintro ⟨s, hs, h1, -, h3⟩
    exact h ⟨s, hs, h1, h3⟩
  unfold handleSubmitCommand
  rw [hasUserSubmittedToday_eq, hreg]
  simp only [h, decide_False, Bool.false_eq_true, if_false, AddSubmission, h2]

theorem wrapInt64_of_range (x : Int) (hlo : -9223372036854775808 ≤ x)
    (hhi : x < 9223372036854775808) : wrapInt64 x = x := by
  unfold wrapInt64
  omega

/-! ## Selection from the pool -/

theorem getRandomUnusedProblem_ok_mem (db : DB) (r : Nat) (q : Problem)
    (h : GetRandomUnusedProblem db r = .ok q) : q ∈ db.problems ∧ q.Used = false := by
  unfold GetRandomUnusedProblem at h
  simp only at h
  split at h
  · cases h
  · rename_i row hrow
    have hmem := List.getElem?_mem hrow
    rw [List.mem_filter] at hmem
    obtain ⟨hin, hused⟩ := hmem
    have hused2 : row.Used = false := by simpa using hused
    have hq : q = row := by
      cases row
      cases h
      simp_all
    rw [hq]
    exact ⟨hin, hused2⟩

theorem getRandomUnusedProblem_of_unused (db : DB) (r : Nat)
    (h : ∃ p ∈ db.problems, p.Used = false) :
    ∃ q, GetRandomUnusedProblem db r = .ok q := by
  obtain ⟨p, hp, hu⟩ := h
  have hmem : p ∈ db.problems.filter (fun p => p.Used = false) := by
    rw [List.mem_filter]
    exact ⟨hp, by simpa using hu⟩
  have hpos : 0 < (db.problems.filter (fun p => p.Used = false)).length :=
    List.length_pos_of_mem hmem
  have hlt := Nat.mod_lt r hpos
  unfold GetRandomUnusedProblem
  simp only
  rw [List.getElem?_eq_getElem hlt]
  exact ⟨_, rfl⟩

theorem getRandomUnusedProblem_of_all_used (db : DB) (r : Nat)
    (h : ¬ ∃ p ∈ db.problems, p.Used = false) :
    GetRandomUnusedProblem db r = .error ErrNoRows := by
  have hnil : db.problems.filter (fun p => p.Used = false) = [] := by
    rw [List.filter_eq_nil_iff]
    intro p hp hu
    exact h ⟨p, hp, by simpa using hu⟩
  unfold GetRandomUnusedProblem
  simp only [hnil]
  rfl

/-! ## The three ways in which `PostDailyChallenge` ends -/

theorem postDailyChallenge_of_select_error (b : Bot) (r : Nat) (today longDate err : String)
    (hsel : GetRandomUnusedProblem b.db r = .error err) :
    PostDailyChallenge b r today longDate = (some ("failed to get random problem: " ++ err), b) := by
  simp only [PostDailyChallenge, hsel]

theorem postDailyChallenge_of_counter_missing (b : Bot) (r : Nat) (today longDate : String)
    (problem : Problem) (hsel : GetRandomUnusedProblem b.db r = .ok problem)
    (hctr : b.db.challenge_counter = none) :
    PostDailyChallenge b r today longDate =
      (some ("failed to increment day number: " ++ ErrNoRows),
       { b with db := { b.db with problems := (b.db.problems.map
           (fun p => if p.ID = problem.ID then { p with Used := true } else p)) } }) := by
  simp only [PostDailyChallenge, hsel, MarkProblemAsUsed, IncrementDayNumber, hctr]

theorem postDailyChallenge_of_counter (b : Bot) (r : Nat) (today longDate : String)
    (problem : Problem) (n : Int) (hsel : GetRandomUnusedProblem b.db r = .ok problem)
    (hctr : b.db.challenge_counter = some n) :
    PostDailyChallenge b r today longDate =
      (none,
       { db :=
           { problems := b.db.problems.map
               (fun p => if p.ID = problem.ID then { p with Used := true } else p),
             users := b.db.users,
             submissions := b.db.submissions,
             daily_challenges :=
               if ∃ c ∈ b.db.daily_challenges, c.Date = today then b.db.daily_challenges
               else b.db.daily_challenges ++
                 [{ ID := nextRowID b.db.daily_challenges_seq
                      (b.db.daily_challenges.map (fun c => c.ID)),
                    ProblemID := problem.ID, Date := today, DayNumber := wrapInt64 (n + 1) }],
             challenge_counter := some (wrapInt64 (n + 1)),
             problems_seq := b.db.problems_seq,
             submissions_seq := b.db.submissions_seq,
             daily_challenges_seq := nextRowID b.db.daily_challenges_seq
               (b.db.daily_challenges.map (fun c => c.ID)) },
         config := b.config,
         sent := b.sent ++ [(b.config.TelegramGroupID,
                   challengeText (wrapInt64 (n + 1)) longDate problem)] }) := by
  simp only [PostDailyChallenge, hsel, MarkProblemAsUsed, IncrementDayNumber, hctr,
    AddDailyChallenge]
  by_cases hdup : ∃ c ∈ b.db.daily_challenges, c.Date = today
  · simp only [hdup, if_true, sendMessage]
  · simp only [hdup, if_false, sendMessage]

/-- `PostDailyChallenge` adds nothing to the registry when the date has a row. -/
theorem postDailyChallenge_registry_of_posted (b : Bot) (r : Nat) (today longDate : String)
    (hdup : ∃ c ∈ b.db.daily_challenges, c.Date = today) :
    (PostDailyChallenge b r today longDate).2.db.daily_challenges = b.db.daily_challenges := by
  cases hsel : GetRandomUnusedProblem b.db r with
  | error err => rw [postDailyChallenge_of_select_error b r today longDate err hsel]
  | ok problem =>
    cases hctr : b.db.challenge_counter with
    | none => rw [postDailyChallenge_of_counter_missing b r today longDate problem hsel hctr]
    | some n =>
      rw [postDailyChallenge_of_counter b r today longDate problem n hsel hctr]
      simp only [hdup, if_true]

/-- The join of `GetTodaysChallengeWithDay` does not read the column `used`. -/
theorem challengeRows_of_marked (db db1 : DB) (problemID : Int) (date : String)
    (hp : db1.problems = db.problems.map
      (fun p => if p.ID = problemID then { p with Used := true } else p))
    (hc : db1.daily_challenges = db.daily_challenges) :
    challengeRows db1 date = challengeRows db date := by
  unfold challengeRows
  rw [hp, hc]
  congr 1
  funext dc
  induction db.problems with
  | nil => rfl
  | cons p ps ih =>
    by_cases h1 : p.ID = problemID <;> by_cases h2 : p.ID = dc.ProblemID <;>
      simp_all [List.filter_cons]

/-! ## What a run does to the pool -/

theorem le_foldl_max (ids : List Int) (init : Int) :
    init ≤ ids.foldl max init ∧ ∀ x ∈ ids, x ≤ ids.foldl max init := by
  induction ids generalizing init with
  | nil => simp
  | cons a rest ih =>
    obtain ⟨h1, h2⟩ := ih (max init a)
    refine ⟨le_trans (le_max_left _ _) h1, ?_⟩
    intro x hx
    rcases List.mem_cons.mp hx with rfl | hx
    · exact le_trans (le_max_right _ _) h1
    · exact h2 x hx

theorem lt_nextRowID (seq : Int) (ids : List Int) (x : Int) (hx : x ∈ ids) :
    x < nextRowID seq ids := by
  have := (le_foldl_max ids seq).2 x hx
  unfold nextRowID
  omega

theorem poolStep_loadCategory (category : String) (entries : List YAMLProblem)
    (st : List Problem × Int) :
    Relation.ReflTransGen PoolStep st.1
      (entries.foldl (fun st problem =>
        insertProblemStmt st problem.Title problem.URL category) st).1 := by
  induction entries generalizing st with
  | nil => exact Relation.ReflTransGen.refl
  | cons e rest ih =>
    exact Relation.ReflTransGen.head (PoolStep.insert st.1 st.2 e.Title e.URL category)
      (ih (insertProblemStmt st e.Title e.URL category))

theorem poolStep_loadCatalogue (problems : ProblemsData) (st : List Problem × Int) :
    Relation.ReflTransGen PoolStep st.1
      (problems.foldl (fun st entry =>
        entry.2.foldl (fun st problem =>
          insertProblemStmt st problem.Title problem.URL entry.1) st) st).1 := by
  induction problems generalizing st with
  | nil => exact Relation.ReflTransGen.refl
  | cons e rest ih =>
    exact Relation.ReflTransGen.trans (poolStep_loadCategory e.1 e.2 st) (ih _)

theorem handleSubmitCommand_problems (b : Bot) (message : Message) (today : String) :
    (handleSubmitCommand b message today).db.problems = b.db.problems := by
  by_cases h : ∃ s ∈ b.db.submissions, s.UserID = message.From.ID ∧ s.Date = today
  · rw [handleSubmitCommand_already b message today h]
    rfl
  · cases hreg : GetTodaysChallengeWithDay b.db today with
    | error err =>
      have hrows : challengeRows b.db today = [] := by
        unfold GetTodaysChallengeWithDay at hreg
        split at hreg
        · assumption
        · cases hreg
      rw [handleSubmitCommand_noChallenge b message today h hrows]
      rfl
    | ok res =>
      obtain ⟨problem, dayNumber⟩ := res
      rw [handleSubmitCommand_recorded b message today problem dayNumber h hreg]
      rfl

theorem postDailyChallenge_problems (b : Bot) (r : Nat) (today longDate : String) :
    (∃ err, GetRandomUnusedProblem b.db r = .error err ∧
      (PostDailyChallenge b r today longDate).2.db.problems = b.db.problems) ∨
    (∃ problem, GetRandomUnusedProblem b.db r = .ok problem ∧
      (PostDailyChallenge b r today longDate).2.db.problems =
        b.db.problems.map (fun p => if p.ID = problem.ID then { p with Used := true } else p)) := by
  cases hsel : GetRandomUnusedProblem b.db r with
  | error err =>
    left
    rw [postDailyChallenge_of_select_error b r today longDate err hsel]
    exact ⟨err, rfl, rfl⟩
  | ok problem =>
    right
    refine ⟨problem, rfl, ?_⟩
    cases hctr : b.db.challenge_counter with
    | none => rw [postDailyChallenge_of_counter_missing b r today longDate problem hsel hctr]
    | some n => rw [postDailyChallenge_of_counter b r today longDate problem n hsel hctr]

theorem step_pool (b : Bot) (op : Op) :
    Relation.ReflTransGen PoolStep b.db.problems (step b op).db.problems := by
  cases op with
  | PostDailyChallenge r today longDate =>
    rcases postDailyChallenge_problems b r today longDate with ⟨err, -, h⟩ | ⟨problem, -, h⟩
    · show Relation.ReflTransGen PoolStep _ (PostDailyChallenge b r today longDate).2.db.problems
      rw [h]
    · show Relation.ReflTransGen PoolStep _ (PostDailyChallenge b r today longDate).2.db.problems
      rw [h]
      exact Relation.ReflTransGen.single (PoolStep.mark _ _)
  | handleSubmitCommand message today =>
    show Relation.ReflTransGen PoolStep _ (handleSubmitCommand b message today).db.problems
    rw [handleSubmitCommand_problems]
  | ResetDayNumber => exact Relation.ReflTransGen.refl
  | AddUser user => exact Relation.ReflTransGen.refl
  | AddProblem problem => exact Relation.ReflTransGen.single (PoolStep.insert _ _ _ _ _)
  | LoadProblemsFromYAML problems =>
    exact poolStep_loadCatalogue problems (b.db.problems, b.db.problems_seq)

theorem run_pool (b : Bot) (ops : List Op) :
    Relation.ReflTransGen PoolStep b.db.problems (run b ops).db.problems := by
  induction ops generalizing b with
  | nil => exact Relation.ReflTransGen.refl
  | cons op rest ih => exact Relation.ReflTransGen.trans (step_pool b op) (ih (step b op))

theorem rowKept_refl (p : Problem) : rowKept p p :=
  ⟨rfl, rfl, rfl, rfl, fun h => h⟩

theorem rowKept_trans (p q x : Problem) (h1 : rowKept p q) (h2 : rowKept q x) : rowKept p x := by
  obtain ⟨a1, a2, a3, a4, a5⟩ := h1
  obtain ⟨b1, b2, b3, b4, b5⟩ := h2
  exact ⟨b1.trans a1, b2.trans a2, b3.trans a3, b4.trans a4, fun h => b5 (a5 h)⟩

theorem poolKept_of_poolStep (rows rows1 : List Problem) (h : PoolStep rows rows1) :
    poolKept rows rows1 := by
  cases h with
  | mark problemID =>
    intro i p hp
    refine ⟨_, by rw [List.getElem?_map, hp]; rfl, ?_⟩
    by_cases hid : p.ID = problemID
    · simp only [hid, if_true]
      exact ⟨hid.symm, rfl, rfl, rfl, fun _ => rfl⟩
    · simp only [hid, if_false]
      exact rowKept_refl p
  | insert seq title url category =>
    intro i p hp
    refine ⟨p, ?_, rowKept_refl p⟩
    unfold insertProblem
    split
    · exact hp
    · obtain ⟨hi, -⟩ := List.getElem?_eq_some_iff.mp hp
      rw [List.getElem?_append_left hi]
      exact hp

theorem poolKept_of_chain (rows rows1 : List Problem)
    (h : Relation.ReflTransGen PoolStep rows rows1) : poolKept rows rows1 := by
  induction h with
  | refl => exact fun i p hp => ⟨p, hp, rowKept_refl p⟩
  | tail _ hstep ih =>
    intro i p hp
    obtain ⟨q, hq, hpq⟩ := ih i p hp
    obtain ⟨x, hx, hqx⟩ := poolKept_of_poolStep _ _ hstep i q hq
    exact ⟨x, hx, rowKept_trans p q x hpq hqx⟩

theorem consumed_of_poolStep (rows rows1 : List Problem) (problemID : Int)
    (h : PoolStep rows rows1) (hc : consumed rows problemID) : consumed rows1 problemID := by
  obtain ⟨⟨p0, hp0, hid0⟩, hall⟩ := hc
  cases h with
  | mark otherID =>
    constructor
    · refine ⟨_, List.mem_map_of_mem _ hp0, ?_⟩
      by_cases h : p0.ID = otherID
      · simp only [h, if_true]
        rw [← hid0, h]
      · simp only [h, if_false]
        exact hid0
    · intro q hq hqid
      obtain ⟨p, hp, rfl⟩ := List.mem_map.mp hq
      by_cases h : p.ID = otherID
      · simp only [h, if_true]
      · simp only [h, if_false] at hqid ⊢
        exact hall p hp hqid
  | insert seq title url category =>
    unfold insertProblem
    split
    · exact ⟨⟨p0, hp0, hid0⟩, hall⟩
    · constructor
      · exact ⟨p0, List.mem_append_left _ hp0, hid0⟩
      · intro q hq hqid
        rcases List.mem_append.mp hq with hq | hq
        · exact hall q hq hqid
        · rw [List.mem_singleton] at hq
          have hlt := lt_nextRowID seq (rows.map (fun p => p.ID)) p0.ID
            (List.mem_map_of_mem _ hp0)
          rw [hq] at hqid
          simp only at hqid
          omega

theorem consumed_of_chain (rows rows1 : List Problem) (problemID : Int)
    (h : Relation.ReflTransGen PoolStep rows rows1) (hc : consumed rows problemID) :
    consumed rows1 problemID := by
  induction h with
  | refl => exact hc
  | tail _ hstep ih => exact consumed_of_poolStep _ _ problemID hstep ih

theorem consumed_after_mark (rows : List Problem) (problem : Problem) (hmem : problem ∈ rows) :
    consumed (rows.map (fun p => if p.ID = problem.ID then { p with Used := true } else p))
      problem.ID := by
  constructor
  · refine ⟨_, List.mem_map_of_mem _ hmem, ?_⟩
    simp only [if_true]
  · intro q hq hqid
    obtain ⟨p, hp, rfl⟩ := List.mem_map.mp hq
    by_cases h : p.ID = problem.ID
    · simp only [h, if_true]
    · simp only [h, if_false] at hqid

/-! ## Ledger rows exist only for posted dates -/

theorem challengeRows_eq_nil_of_no_row (db : DB) (date : String)
    (h : ¬ ∃ c ∈ db.daily_challenges, c.Date = date) : challengeRows db date = [] := by
  have hnil : db.daily_challenges.filter (fun dc => dc.Date = date) = [] := by
    rw [List.filter_eq_nil_iff]
    intro c hc hd
    exact h ⟨c, hc, by simpa using hd⟩
  unfold challengeRows
  rw [hnil]
  rfl

theorem registry_row_of_lookup (db : DB) (date : String) (res : Problem × Int)
    (h : GetTodaysChallengeWithDay db date = .ok res) :
    ∃ c ∈ db.daily_challenges, c.Date = date := by
  by_contra hno
  unfold GetTodaysChallengeWithDay at h
  rw [challengeRows_eq_nil_of_no_row db date hno] at h
  cases h

theorem handleSubmitCommand_ledger (b : Bot) (message : Message) (today : String)
    (hinv : ledgerWithinRegistry b.db) :
    ledgerWithinRegistry (handleSubmitCommand b message today).db := by
  by_cases h : ∃ s ∈ b.db.submissions, s.UserID = message.From.ID ∧ s.Date = today
  · rw [handleSubmitCommand_already b message today h]
    exact hinv
  · cases hreg : GetTodaysChallengeWithDay b.db today with
    | error err =>
      have hrows : challengeRows b.db today = [] := by
        unfold GetTodaysChallengeWithDay at hreg
        split at hreg
        · assumption
        · cases hreg
      rw [handleSubmitCommand_noChallenge b message today h hrows]
      exact hinv
    | ok res =>
      obtain ⟨problem, dayNumber⟩ := res
      rw [handleSubmitCommand_recorded b message today problem dayNumber h hreg]
      intro s hs
      rcases List.mem_append.mp hs with hs | hs
      · exact hinv s hs
      · rw [List.mem_singleton] at hs
        rw [hs]
        exact registry_row_of_lookup b.db today _ hreg

theorem postDailyChallenge_ledger (b : Bot) (r : Nat) (today longDate : String)
    (hinv : ledgerWithinRegistry b.db) :
    ledgerWithinRegistry (PostDailyChallenge b r today longDate).2.db := by
  cases hsel : GetRandomUnusedProblem b.db r with
  | error err =>
    rw [postDailyChallenge_of_select_error b r today longDate err hsel]
    exact hinv
  | ok problem =>
    cases hctr : b.db.challenge_counter with
    | none =>
      rw [postDailyChallenge_of_counter_missing b r today longDate problem hsel hctr]
      exact hinv
    | some n =>
      rw [postDailyChallenge_of_counter b r today longDate problem n hsel hctr]
      intro s hs
      obtain ⟨c, hc, hd⟩ := hinv s hs
      refine ⟨c, ?_, hd⟩
      show c ∈ (if ∃ c ∈ b.db.daily_challenges, c.Date = today then b.db.daily_challenges
        else b.db.daily_challenges ++ _)
      split
      · exact hc
      · exact List.mem_append_left _ hc

theorem step_ledger (b : Bot) (op : Op) (hinv : ledgerWithinRegistry b.db) :
    ledgerWithinRegistry (step b op).db := by
  cases op with
  | PostDailyChallenge r today longDate => exact postDailyChallenge_ledger b r today longDate hinv
  | handleSubmitCommand message today => exact handleSubmitCommand_ledger b message today hinv
  | ResetDayNumber => exact hinv
  | AddUser user => exact hinv
  | AddProblem problem => exact hinv
  | LoadProblemsFromYAML problems => exact hinv

theorem run_ledger (b : Bot) (ops : List Op) (hinv : ledgerWithinRegistry b.db) :
    ledgerWithinRegistry (run b ops).db := by
  induction ops generalizing b with
  | nil => exact hinv
  | cons op rest ih => exact ih (step b op) (step_ledger b op hinv)

theorem freshBot_ledger (config : Config) : ledgerWithinRegistry (freshBot config).db := by
  intro s hs
  cases hs

/-- After any run of the operations of `Op` from a new store, a `/submit` for
a date without a registry row is answered with "No challenge available for
today yet" and leaves the store as it is: such a run leaves no ledger row for
a date that was not posted. -/
theorem submit_after_run_requires_posted_challenge (config : Config) (ops : List Op)
    (message : Message) (today : String)
    (hnone : ¬ ∃ c ∈ (run (freshBot config) ops).db.daily_challenges, c.Date = today) :
    (handleSubmitCommand (run (freshBot config) ops) message today).sent =
      (run (freshBot config) ops).sent ++ [(message.Chat.ID, noChallengeText)] ∧
    (handleSubmitCommand (run (freshBot config) ops) message today).db =
      (run (freshBot config) ops).db := by
  have hinv := run_ledger (freshBot config) ops (freshBot_ledger config)
  have hsub : ¬ ∃ s ∈ (run (freshBot config) ops).db.submissions,
      s.UserID = message.From.ID ∧ s.Date = today := by
    rintro ⟨s, hs, -, hd⟩
    obtain ⟨c, hc, hcd⟩ := hinv s hs
    exact hnone ⟨c, hc, hcd.trans hd⟩
  rw [handleSubmitCommand_noChallenge _ message today hsub
    (challengeRows_eq_nil_of_no_row _ today hnone)]
  exact ⟨rfl, rfl⟩

/-! ## The leaderboard query -/

theorem leaderboardJoin_count (submissions : List Submission) (users : List User) (u : User) :
    ((users.flatMap (fun v =>
        if submissions.filter (fun s => s.UserID = v.ID) = [] then [(v, (none : Option Int))]
        else (submissions.filter (fun s => s.UserID = v.ID)).map (fun s => (v, some s.ID)))).filter
      (fun row => row.1 = u ∧ row.2.isSome)).length =
    users.count u * (submissions.filter (fun s => s.UserID = u.ID)).length := by
  induction users with
  | nil => simp
  | cons v rest ih =>
    rw [List.flatMap_cons, List.filter_append, List.length_append, ih, List.count_cons,
      Nat.add_mul, Nat.add_comm]
    congr 1
    by_cases hv : v = u
    · subst hv
      by_cases hnil : submissions.filter (fun s => s.UserID = v.ID) = []
      · simp [hnil]
      · simp [hnil, List.filter_map, Function.comp_def]
    · have hv2 : ¬ (v == u) = true := by simpa using hv
      by_cases hnil : submissions.filter (fun s => s.UserID = v.ID) = []
      · simp [hnil, hv, hv2]
      · simp [hnil, hv, hv2, List.filter_map, Function.comp_def]

theorem leaderboardGroups_eq (db : DB) (hpk : usersUnique db.users) :
    leaderboardGroups db = db.users.map (entryOf db) := by
  have hnd : db.users.Nodup := List.Nodup.of_map _ hpk
  unfold leaderboardGroups
  rw [hnd.dedup]
  apply List.map_congr_left
  intro u hu
  have hc := leaderboardJoin_count db.submissions db.users u
  rw [List.count_eq_one_of_mem hnd hu, Nat.one_mul] at hc
  unfold entryOf submissionCount leaderboardJoin
  rw [hc]

theorem getLeaderboard_eq (db : DB) (limit : Int) (hlimit : 0 ≤ limit) :
    GetLeaderboard db limit =
      .ok (((leaderboardGroups db).insertionSort leaderboardOrder).take limit.toNat) := by
  unfold GetLeaderboard
  simp only [not_lt.mpr hlimit, if_false]

theorem getLeaderboard_mem (db : DB) (limit : Int) (entries : List LeaderboardEntry)
    (hpk : usersUnique db.users) (h : GetLeaderboard db limit = .ok entries)
    (e : LeaderboardEntry) (he : e ∈ entries) : ∃ u ∈ db.users, e = entryOf db u := by
  have hmem : e ∈ (leaderboardGroups db).insertionSort leaderboardOrder := by
    unfold GetLeaderboard at h
    simp only at h
    split at h
    · cases h
      exact he
    · cases h
      exact List.mem_of_mem_take he
  rw [(List.perm_insertionSort _ _).mem_iff, leaderboardGroups_eq db hpk, List.mem_map] at hmem
  obtain ⟨u, hu, rfl⟩ := hmem
  exact ⟨u, hu, rfl⟩

theorem bob_not_le_alice : ¬ "Bob" ≤ "Alice" := by
  rw [String.le_iff_toList_le]
  decide

theorem count_dates_eq_rowsOfUserDate (rows : List Submission) (userID : Int) (date : String) :
    ((rows.filter (fun s => s.UserID = userID)).map (fun s => s.Date)).count date =
      rowsOfUserDate rows userID date := by
  unfold rowsOfUserDate
  induction rows with
  | nil => rfl
  | cons s rest ih =>
    by_cases hu : s.UserID = userID <;> by_cases hd : s.Date = date <;>
      simp [List.filter_cons, hu, hd, ih, List.count_cons]

theorem distinctDates_le (db : DB) (userID : Int) :
    distinctDates db userID ≤ submissionCount db userID := by
  unfold distinctDates submissionCount
  have h := (List.dedup_sublist
    ((db.submissions.filter (fun s => s.UserID = userID)).map (fun s => s.Date))).length_le
  rwa [List.length_map] at h

theorem distinctDates_eq_iff (db : DB) (userID : Int) :
    distinctDates db userID = submissionCount db userID ↔
      ∀ date, rowsOfUserDate db.submissions userID date ≤ 1 := by
  unfold distinctDates submissionCount
  rw [← List.length_map (db.submissions.filter (fun s => s.UserID = userID)) (fun s => s.Date)]
  constructor
  · intro h date
    have hnd : ((db.submissions.filter (fun s => s.UserID = userID)).map
        (fun s => s.Date)).Nodup := by
      rw [← List.dedup_eq_self]
      exact (List.dedup_sublist _).eq_of_length h
    rw [← count_dates_eq_rowsOfUserDate]
    exact List.nodup_iff_count_le_one.mp hnd date
  · intro h
    have hnd : ((db.submissions.filter (fun s => s.UserID = userID)).map
        (fun s => s.Date)).Nodup := by
      rw [List.nodup_iff_count_le_one]
      intro date
      rw [count_dates_eq_rowsOfUserDate]
      exact h date
    rw [hnd.dedup]

/-! ## The admin commands -/

/-- A message sent before `PostDailyChallenge` changes neither its result nor
the store it leaves. -/
theorem postDailyChallenge_after_send (b : Bot) (chatID : Int) (text : String) (r : Nat)
    (today longDate : String) :
    (PostDailyChallenge (sendMessage b chatID text) r today longDate).1 =
      (PostDailyChallenge b r today longDate).1 ∧
    (PostDailyChallenge (sendMessage b chatID text) r today longDate).2.db =
      (PostDailyChallenge b r today longDate).2.db := by
  cases hsel : GetRandomUnusedProblem b.db r with
  | error err =>
    rw [postDailyChallenge_of_select_error b r today longDate err hsel,
      postDailyChallenge_of_select_error (sendMessage b chatID text) r today longDate err hsel]
    exact ⟨rfl, rfl⟩
  | ok problem =>
    cases hctr : b.db.challenge_counter with
    | none =>
      rw [postDailyChallenge_of_counter_missing b r today longDate problem hsel hctr,
        postDailyChallenge_of_counter_missing (sendMessage b chatID text) r today longDate
          problem hsel hctr]
      exact ⟨rfl, rfl⟩
    | some n =>
      rw [postDailyChallenge_of_counter b r today longDate problem n hsel hctr,
        postDailyChallenge_of_counter (sendMessage b chatID text) r today longDate
          problem n hsel hctr]
      exact ⟨rfl, rfl⟩

theorem handleManualCommand_of_allowed (b : Bot) (message : Message) (r : Nat)
    (today longDate : String)
    (hallowed : ¬ (message.From.ID ≠ b.config.TelegramGroupID ∧
      message.Chat.ID ≠ b.config.TelegramGroupID)) :
    (handleManualCommand b message r today longDate).db =
      (PostDailyChallenge b r today longDate).2.db ∧
    (handleManualCommand b message r today longDate).sent.getLast? =
      some (message.Chat.ID,
        match (PostDailyChallenge b r today longDate).1 with
        | some err => "❌ Error posting manual challenge: " ++ err
        | none => "✅ Manual challenge posted successfully!") := by
  obtain ⟨h1, h2⟩ := postDailyChallenge_after_send b message.Chat.ID
    "📝 Manually posting daily challenge..." r today longDate
  unfold handleManualCommand
  simp only [hallowed, if_false]
  rw [← h1, ← h2]
  rcases hres : PostDailyChallenge (sendMessage b message.Chat.ID
    "📝 Manually posting daily challenge...") r today longDate with ⟨_ | err, b1⟩
  · simp [sendMessage]
  · simp [sendMessage]

/-! ## The day counter -/

/-- On a store that works, the transaction is `IncrementDayNumber`. -/
theorem incrementDayNumberTx_none (db : DB) :
    IncrementDayNumberTx db none =
      match IncrementDayNumber db with
      | .ok (newDay, db1) => (.ok newDay, db1)
      | .error err => (.error err, db) := by
  unfold IncrementDayNumberTx IncrementDayNumber
  cases h : db.challenge_counter <;> simp only [h]

theorem incrementDayNumber_of_counter (db : DB) (n : Int)
    (hctr : db.challenge_counter = some n)
    (hlo : -9223372036854775808 ≤ n) (hhi : n < 9223372036854775807) :
    IncrementDayNumber db = .ok (n + 1, { db with challenge_counter := some (n + 1) }) := by
  unfold IncrementDayNumber
  rw [hctr]
  simp only [wrapInt64_of_range (n + 1) (by omega) (by omega)]

theorem incrementTimes_values (k : Nat) (db : DB) (n : Int)
    (hctr : db.challenge_counter = some n)
    (hlo : -9223372036854775808 ≤ n) (hk : n + k ≤ 9223372036854775807) :
    (incrementTimes k db).1 = (List.range k).map (fun i : Nat => n + 1 + (i : Int)) ∧
    (incrementTimes k db).2.challenge_counter = some (n + k) := by
  induction k generalizing db n with
  | zero => simp [incrementTimes, hctr]
  | succ k ih =>
    have hhi : n < 9223372036854775807 := by omega
    obtain ⟨h1, h2⟩ := ih { db with challenge_counter := some (n + 1) } (n + 1) rfl
      (by omega) (by push_cast at hk ⊢; omega)
    unfold incrementTimes
    rw [incrementDayNumber_of_counter db n hctr hlo hhi]
    simp only [h1, h2, List.range_succ_eq_map, List.map_cons, List.map_map]
    refine ⟨?_, ?_⟩
    · congr 1
      · simp
      · apply List.map_congr_left
        intro i _
        simp only [Function.comp, Nat.succ_eq_add_one]
        push_cast
        ring
    · congr 1
      push_cast
      ring

/-! ## One ledger row per user and date in sequential runs -/

theorem postDailyChallenge_submissions (b : Bot) (r : Nat) (today longDate : String) :
    (PostDailyChallenge b r today longDate).2.db.submissions = b.db.submissions := by
  cases hsel : GetRandomUnusedProblem b.db r with
  | error err => rw [postDailyChallenge_of_select_error b r today longDate err hsel]
  | ok problem =>
    cases hctr : b.db.challenge_counter with
    | none => rw [postDailyChallenge_of_counter_missing b r today longDate problem hsel hctr]
    | some n => rw [postDailyChallenge_of_counter b r today longDate problem n hsel hctr]

theorem handleSubmitCommand_oneRow (b : Bot) (message : Message) (today : String)
    (hinv : oneRowPerUserDate b.db) :
    oneRowPerUserDate (handleSubmitCommand b message today).db := by
  by_cases h : ∃ s ∈ b.db.submissions, s.UserID = message.From.ID ∧ s.Date = today
  · rw [handleSubmitCommand_already b message today h]
    exact hinv
  · cases hreg : GetTodaysChallengeWithDay b.db today with
    | error err =>
      have hrows : challengeRows b.db today = [] := by
        unfold GetTodaysChallengeWithDay at hreg
        split at hreg
        · assumption
        · cases hreg
      rw [handleSubmitCommand_noChallenge b message today h hrows]
      exact hinv
    | ok res =>
      obtain ⟨problem, dayNumber⟩ := res
      rw [handleSubmitCommand_recorded b message today problem dayNumber h hreg]
      intro userID date
      have hold := hinv userID date
      unfold rowsOfUserDate at hold ⊢
      simp only [sendMessage, List.filter_append, List.length_append]
      by_cases hk : message.From.ID = userID ∧ today = date
      · obtain ⟨rfl, rfl⟩ := hk
        have hnil : b.db.submissions.filter
            (fun s => s.UserID = message.From.ID ∧ s.Date = today) = [] := by
          rw [List.filter_eq_nil_iff]
          intro s hs hp
          exact h ⟨s, hs, by simpa using hp⟩
        rw [hnil]
        simp
      · simp only [List.filter_cons, List.filter_nil, hk, decide_False, Bool.false_eq_true,
          if_false, List.length_nil, Nat.add_zero]
        exact hold

/-- A run of the operations of `Op` keeps the property that a user has at most
one ledger row per date. -/
theorem run_oneRowPerUserDate (b : Bot) (ops : List Op) (hinv : oneRowPerUserDate b.db) :
    oneRowPerUserDate (run b ops).db := by
  induction ops generalizing b with
  | nil => exact hinv
  | cons op rest ih =>
    apply ih (step b op)
    cases op with
    | PostDailyChallenge r today longDate =>
      intro userID date
      show rowsOfUserDate (PostDailyChallenge b r today longDate).2.db.submissions userID date ≤ 1
      rw [postDailyChallenge_submissions]
      exact hinv userID date
    | handleSubmitCommand message today => exact handleSubmitCommand_oneRow b message today hinv
    | ResetDayNumber => exact hinv
    | AddUser user => exact hinv
    | AddProblem problem => exact hinv
    | LoadProblemsFromYAML problems => exact hinv

/-! ## What `AddSubmission` does to the ledger -/

/-- `AddSubmission` returns without error, touches no other table, and either
finds a row with the same user, problem and date and keeps the ledger, or
finds none and appends one row with these three values. -/
theorem addSubmission_cases (db : DB) (s : Submission) :
    ∃ db1, AddSubmission db s = .ok db1 ∧
      db1.problems = db.problems ∧ db1.users = db.users ∧
      db1.daily_challenges = db.daily_challenges ∧
      db1.challenge_counter = db.challenge_counter ∧
      (((∃ x ∈ db.submissions, x.UserID = s.UserID ∧ x.ProblemID = s.ProblemID ∧
            x.Date = s.Date) ∧ db1.submissions = db.submissions) ∨
       ((¬ ∃ x ∈ db.submissions, x.UserID = s.UserID ∧ x.ProblemID = s.ProblemID ∧
            x.Date = s.Date) ∧
          ∃ rowID, db1.submissions = db.submissions ++
            [{ ID := rowID, UserID := s.UserID, ProblemID := s.ProblemID, Date := s.Date }])) := by
  by_cases hex : ∃ x ∈ db.submissions, x.UserID = s.UserID ∧ x.ProblemID = s.ProblemID ∧
      x.Date = s.Date
  · exact ⟨{ db with
        submissions_seq := nextRowID db.submissions_seq (db.submissions.map (fun s => s.ID)) },
      by simp only [AddSubmission, hex, if_true], rfl, rfl, rfl, rfl, Or.inl ⟨hex, rfl⟩⟩
  · exact ⟨{ db with
        submissions := db.submissions ++
          [{ ID := nextRowID db.submissions_seq (db.submissions.map (fun s => s.ID)),
             UserID := s.UserID, ProblemID := s.ProblemID, Date := s.Date }],
        submissions_seq := nextRowID db.submissions_seq (db.submissions.map (fun s => s.ID)) },
      by simp only [AddSubmission, hex, if_false], rfl, rfl, rfl, rfl,
      Or.inr ⟨hex, _, rfl⟩⟩

theorem rowsOfUserProblemDate_pos_iff (rows : List Submission) (userID problemID : Int)
    (date : String) :
    0 < rowsOfUserProblemDate rows userID problemID date ↔
      ∃ x ∈ rows, x.UserID = userID ∧ x.ProblemID = problemID ∧ x.Date = date := by
  unfold rowsOfUserProblemDate
  rw [List.length_pos, ne_eq, List.filter_eq_nil_iff]
  simp

/-- The number of rows of a key after `AddSubmission`: one more when the key
is the inserted one and had no row, the same otherwise. -/
theorem rowsOfUserProblemDate_addSubmission (db db1 : DB) (s : Submission)
    (h : AddSubmission db s = .ok db1) (userID problemID : Int) (date : String) :
    rowsOfUserProblemDate db1.submissions userID problemID date =
      rowsOfUserProblemDate db.submissions userID problemID date +
        (if (s.UserID = userID ∧ s.ProblemID = problemID ∧ s.Date = date) ∧
            rowsOfUserProblemDate db.submissions userID problemID date = 0 then 1 else 0) := by
  obtain ⟨db2, h2, -, -, -, -, hcase⟩ := addSubmission_cases db s
  rw [h] at h2
  cases h2
  rcases hcase with ⟨hex, hsame⟩ | ⟨hno, rowID, happ⟩
  · rw [hsame]
    by_cases hk : s.UserID = userID ∧ s.ProblemID = problemID ∧ s.Date = date
    · have hpos : 0 < rowsOfUserProblemDate db.submissions userID problemID date := by
        rw [rowsOfUserProblemDate_pos_iff]
        obtain ⟨x, hx, h1, h2, h3⟩ := hex
        exact ⟨x, hx, h1.trans hk.1, h2.trans hk.2.1, h3.trans hk.2.2⟩
      have hne : ¬ rowsOfUserProblemDate db.submissions userID problemID date = 0 := by omega
      simp only [hne, and_false, if_false, Nat.add_zero]
    · simp only [hk, false_and, if_false, Nat.add_zero]
  · rw [happ]
    by_cases hk : s.UserID = userID ∧ s.ProblemID = problemID ∧ s.Date = date
    · have hzero : rowsOfUserProblemDate db.submissions userID problemID date = 0 := by
        by_contra hne
        have hpos : 0 < rowsOfUserProblemDate db.submissions userID problemID date := by omega
        rw [rowsOfUserProblemDate_pos_iff] at hpos
        obtain ⟨x, hx, h1, h2, h3⟩ := hpos
        exact hno ⟨x, hx, h1.trans hk.1.symm, h2.trans hk.2.1.symm, h3.trans hk.2.2.symm⟩
      unfold rowsOfUserProblemDate at hzero ⊢
      simp only [List.filter_append, List.length_append, hzero, hk, and_self, if_true]
      simp [hk]
    · unfold rowsOfUserProblemDate
      simp only [List.filter_append, List.length_append, hk, false_and, if_false, Nat.add_zero]
      simp [hk]

/-- Rows of one user and date for two different problems are different rows. -/
theorem rowsOfUserDate_ge_two_problems (rows : List Submission) (userID p1 p2 : Int)
    (date : String) (hne : p1 ≠ p2) :
    rowsOfUserProblemDate rows userID p1 date + rowsOfUserProblemDate rows userID p2 date ≤
      rowsOfUserDate rows userID date := by
  unfold rowsOfUserProblemDate rowsOfUserDate
  induction rows with
  | nil => simp
  | cons s rest ih =>
    have hsplit : ∀ (q : Submission → Prop) [DecidablePred q],
        ((s :: rest).filter (fun x => decide (q x))).length =
          (rest.filter (fun x => decide (q x))).length + (if q s then 1 else 0) := by
      intro q _
      by_cases hq : q s
      · rw [List.filter_cons_of_pos (by simpa using hq), if_pos hq, List.length_cons]
      · rw [List.filter_cons_of_neg (by simpa using hq), if_neg hq, Nat.add_zero]
    rw [hsplit (fun x => x.UserID = userID ∧ x.ProblemID = p1 ∧ x.Date = date),
      hsplit (fun x => x.UserID = userID ∧ x.ProblemID = p2 ∧ x.Date = date),
      hsplit (fun x => x.UserID = userID ∧ x.Date = date)]
    by_cases hP1 : s.UserID = userID ∧ s.ProblemID = p1 ∧ s.Date = date
    · have hP2 : ¬ (s.UserID = userID ∧ s.ProblemID = p2 ∧ s.Date = date) :=
        fun h => hne (hP1.2.1.symm.trans h.2.1)
      have hP : s.UserID = userID ∧ s.Date = date := ⟨hP1.1, hP1.2.2⟩
      rw [if_pos hP1, if_neg hP2, if_pos hP]
      omega
    · by_cases hP2 : s.UserID = userID ∧ s.ProblemID = p2 ∧ s.Date = date
      · have hP : s.UserID = userID ∧ s.Date = date := ⟨hP2.1, hP2.2.2⟩
        rw [if_neg hP1, if_pos hP2, if_pos hP]
        omega
      · rw [if_neg hP1, if_neg hP2]
        split <;> omega

/-! ## C1: submitting twice -/

/-- C1. When a challenge is registered for `today` and the sender has no
submission for `today`, two `/submit` commands of that sender in a row answer
first with the "submitted" text and then with the "already submitted" text,
and the submissions table then has exactly one row of that user and date. -/
theorem submit_twice_recorded_then_already (b : Bot) (m1 m2 : Message) (today : String)
    (problem : Problem) (dayNumber : Int)
    (hsame : m2.From.ID = m1.From.ID)
    (hreg : GetTodaysChallengeWithDay b.db today = .ok (problem, dayNumber))
    (hnone : ¬ ∃ s ∈ b.db.submissions, s.UserID = m1.From.ID ∧ s.Date = today) :
    (handleSubmitCommand b m1 today).sent =
        b.sent ++ [(m1.Chat.ID, submittedText dayNumber problem)] ∧
    (handleSubmitCommand (handleSubmitCommand b m1 today) m2 today).sent =
        (handleSubmitCommand b m1 today).sent ++ [(m2.Chat.ID, alreadySubmittedText)] ∧
    ((handleSubmitCommand (handleSubmitCommand b m1 today) m2 today).db.submissions.filter
        (fun s => s.UserID = m1.From.ID ∧ s.Date = today)).length = 1 := by
  have h1 := handleSubmitCommand_recorded b m1 today problem dayNumber hnone hreg
  have h2 : handleSubmitCommand (handleSubmitCommand b m1 today) m2 today =
      sendMessage (handleSubmitCommand b m1 today) m2.Chat.ID alreadySubmittedText := by
    apply handleSubmitCommand_already
    rw [h1, hsame]
    exact ⟨_, List.mem_append_right _ (List.mem_singleton_self _), rfl, rfl⟩
  have hfil : b.db.submissions.filter (fun s => s.UserID = m1.From.ID ∧ s.Date = today) = [] := by
    rw [List.filter_eq_nil_iff]
    intro s hs hp
    exact hnone ⟨s, hs, by simpa using hp⟩
  refine ⟨?_, ?_, ?_⟩
  · rw [h1]; rfl
  · rw [h2]; rfl
  · rw [h2, h1]
    simp only [sendMessage, List.filter_append, hfil, List.nil_append]
    simp

/-- C1 at `postedBot`: user 7 submits twice on 2024-01-10. -/
theorem submit_twice_recorded_then_already_witness :
    (handleSubmitCommand postedBot aliceMessage "2024-01-10").sent =
        [(-100, submittedText 10 { twoSum with Used := false })] ∧
    (handleSubmitCommand (handleSubmitCommand postedBot aliceMessage "2024-01-10")
        aliceMessage "2024-01-10").sent =
        (handleSubmitCommand postedBot aliceMessage "2024-01-10").sent ++
          [(-100, alreadySubmittedText)] ∧
    ((handleSubmitCommand (handleSubmitCommand postedBot aliceMessage "2024-01-10")
        aliceMessage "2024-01-10").db.submissions.filter
        (fun s => s.UserID = 7 ∧ s.Date = "2024-01-10")).length = 1 :=
  submit_twice_recorded_then_already postedBot aliceMessage aliceMessage "2024-01-10"
    { twoSum with Used := false } 10 rfl rfl (by decide)

/-! ## C2: the key of the submissions table -/

/-- C2, as stated, fails: in `postedDB`, where nobody has submitted,
`AddSubmission` for user 7 and date 2024-01-10 with problem 1 and then with
problem 2 keeps both rows, so the ledger holds two rows for that user and
date. -/
theorem addSubmission_two_problems_same_date :
    ∃ db2, (AddSubmission postedDB { ID := 0, UserID := 7, ProblemID := 1, Date := "2024-01-10" }
        >>= fun db1 =>
          AddSubmission db1 { ID := 0, UserID := 7, ProblemID := 2, Date := "2024-01-10" })
        = .ok db2 ∧
      rowsOfUserDate db2.submissions 7 "2024-01-10" = 2 ∧
      ¬ rowsOfUserDate db2.submissions 7 "2024-01-10" ≤ 1 :=
  ⟨_, rfl, by decide, by decide⟩

/-- C2, amended. `AddSubmission` is insert-if-absent keyed on (user, problem,
date). On a ledger that satisfies `UNIQUE(user_id, problem_id, date)`, a call
for (u, p1, d) followed by a call for (u, p2, d) both return without error;
the constraint still holds after each; the ledger then holds exactly one row
for (u, p1, d) and exactly one for (u, p2, d); when p1 = p2 the second call
leaves the ledger as the first left it; when p1 and p2 differ both rows are
kept, so the ledger holds at least two rows for (u, d); every row that was
there before is still there, in place, and the only rows added are rows of
u and d for p1 or p2; the other tables are not touched. -/
theorem addSubmission_keyed_on_user_problem_date (db : DB) (userID p1 p2 : Int)
    (date : String) (id1 id2 : Int)
    (hinv : submissionsUnique db.submissions) :
    ∃ db1 db2,
      AddSubmission db { ID := id1, UserID := userID, ProblemID := p1, Date := date } = .ok db1 ∧
      AddSubmission db1 { ID := id2, UserID := userID, ProblemID := p2, Date := date }
        = .ok db2 ∧
      submissionsUnique db1.submissions ∧ submissionsUnique db2.submissions ∧
      rowsOfUserProblemDate db1.submissions userID p1 date = 1 ∧
      rowsOfUserProblemDate db2.submissions userID p1 date = 1 ∧
      rowsOfUserProblemDate db2.submissions userID p2 date = 1 ∧
      (p1 = p2 → db2.submissions = db1.submissions) ∧
      (p1 ≠ p2 → 2 ≤ rowsOfUserDate db2.submissions userID date) ∧
      (∃ added1 added2, db1.submissions = db.submissions ++ added1 ∧
        db2.submissions = db.submissions ++ added1 ++ added2 ∧
        (∀ s ∈ added1, s.UserID = userID ∧ s.ProblemID = p1 ∧ s.Date = date) ∧
        (∀ s ∈ added2, s.UserID = userID ∧ s.ProblemID = p2 ∧ s.Date = date)) ∧
      db2.problems = db.problems ∧ db2.users = db.users ∧
      db2.daily_challenges = db.daily_challenges ∧
      db2.challenge_counter = db.challenge_counter := by
  obtain ⟨db1, h1, hp1, hu1, hd1, hc1, hcase1⟩ := addSubmission_cases db
    { ID := id1, UserID := userID, ProblemID := p1, Date := date }
  obtain ⟨db2, h2, hp2, hu2, hd2, hc2, hcase2⟩ := addSubmission_cases db1
    { ID := id2, UserID := userID, ProblemID := p2, Date := date }
  have hcount1 := rowsOfUserProblemDate_addSubmission db db1 _ h1
  have hcount2 := rowsOfUserProblemDate_addSubmission db1 db2 _ h2
  simp only at hcount1 hcount2 hcase1 hcase2
  have huniq1 : submissionsUnique db1.submissions := by
    intro u p d
    have h0 := hinv u p d
    rw [hcount1 u p d]
    split <;> omega
  have huniq2 : submissionsUnique db2.submissions := by
    intro u p d
    have h0 := huniq1 u p d
    rw [hcount2 u p d]
    split <;> omega
  have hone1 : rowsOfUserProblemDate db1.submissions userID p1 date = 1 := by
    have h0 := hinv userID p1 date
    rw [hcount1 userID p1 date]
    by_cases hz : rowsOfUserProblemDate db.submissions userID p1 date = 0
    · rw [if_pos ⟨⟨rfl, rfl, rfl⟩, hz⟩]
      omega
    · rw [if_neg (fun h => hz h.2)]
      omega
  have hone2 : rowsOfUserProblemDate db2.submissions userID p2 date = 1 := by
    have h0 := huniq1 userID p2 date
    rw [hcount2 userID p2 date]
    by_cases hz : rowsOfUserProblemDate db1.submissions userID p2 date = 0
    · rw [if_pos ⟨⟨rfl, rfl, rfl⟩, hz⟩]
      omega
    · rw [if_neg (fun h => hz h.2)]
      omega
  have hone12 : rowsOfUserProblemDate db2.submissions userID p1 date = 1 := by
    rw [hcount2 userID p1 date, if_neg (fun h => by omega), hone1]
  have hnil : ∀ (q : Submission → Prop), ∀ s ∈ ([] : List Submission), q s :=
    fun _ s hs => absurd hs (List.not_mem_nil s)
  have hsingle : ∀ (row : Submission) (p : Int),
      row.UserID = userID ∧ row.ProblemID = p ∧ row.Date = date →
      ∀ s ∈ [row], s.UserID = userID ∧ s.ProblemID = p ∧ s.Date = date := by
    intro row p hrow s hs
    rw [List.mem_singleton] at hs
    subst hs
    exact hrow
  refine ⟨db1, db2, h1, h2, huniq1, huniq2, hone1, hone12, hone2, ?_, ?_, ?_,
    hp2.trans hp1, hu2.trans hu1, hd2.trans hd1, hc2.trans hc1⟩
  · intro hp
    rcases hcase2 with ⟨-, hsame⟩ | ⟨hno, -⟩
    · exact hsame
    · exfalso
      have hpos : 0 < rowsOfUserProblemDate db1.submissions userID p1 date := by omega
      rw [rowsOfUserProblemDate_pos_iff] at hpos
      exact hno (hp ▸ hpos)
  · intro hne
    have := rowsOfUserDate_ge_two_problems db2.submissions userID p1 p2 date hne
    omega
  · rcases hcase1 with ⟨-, hsame1⟩ | ⟨-, row1, happ1⟩ <;>
      rcases hcase2 with ⟨-, hsame2⟩ | ⟨-, row2, happ2⟩
    · exact ⟨[], [], by rw [hsame1, List.append_nil],
        by rw [hsame2, hsame1, List.append_nil, List.append_nil], hnil _, hnil _⟩
    · exact ⟨[], [_], by rw [hsame1, List.append_nil],
        by rw [happ2, hsame1, List.append_nil], hnil _, hsingle _ p2 ⟨rfl, rfl, rfl⟩⟩
    · exact ⟨[_], [], happ1, by rw [hsame2, happ1, List.append_nil], hsingle _ p1 ⟨rfl, rfl, rfl⟩, hnil _⟩
    · exact ⟨[_], [_], happ1, by rw [happ2, happ1], hsingle _ p1 ⟨rfl, rfl, rfl⟩, hsingle _ p2 ⟨rfl, rfl, rfl⟩⟩

/-- C2, amended, at `rosterDB`, whose ledger has a row of user 1: user 2
submits problem 1 and then problem 2 for 2024-01-10. -/
theorem addSubmission_keyed_on_user_problem_date_witness :
    ∃ db1 db2,
      AddSubmission rosterDB { ID := 0, UserID := 2, ProblemID := 1, Date := "2024-01-10" }
        = .ok db1 ∧
      AddSubmission db1 { ID := 0, UserID := 2, ProblemID := 2, Date := "2024-01-10" }
        = .ok db2 ∧
      submissionsUnique db1.submissions ∧ submissionsUnique db2.submissions ∧
      rowsOfUserProblemDate db1.submissions 2 1 "2024-01-10" = 1 ∧
      rowsOfUserProblemDate db2.submissions 2 1 "2024-01-10" = 1 ∧
      rowsOfUserProblemDate db2.submissions 2 2 "2024-01-10" = 1 ∧
      ((1 : Int) = 2 → db2.submissions = db1.submissions) ∧
      ((1 : Int) ≠ 2 → 2 ≤ rowsOfUserDate db2.submissions 2 "2024-01-10") ∧
      (∃ added1 added2, db1.submissions = rosterDB.submissions ++ added1 ∧
        db2.submissions = rosterDB.submissions ++ added1 ++ added2 ∧
        (∀ s ∈ added1, s.UserID = 2 ∧ s.ProblemID = 1 ∧ s.Date = "2024-01-10") ∧
        (∀ s ∈ added2, s.UserID = 2 ∧ s.ProblemID = 2 ∧ s.Date = "2024-01-10")) ∧
      db2.problems = rosterDB.problems ∧ db2.users = rosterDB.users ∧
      db2.daily_challenges = rosterDB.daily_challenges ∧
      db2.challenge_counter = rosterDB.challenge_counter :=
  addSubmission_keyed_on_user_problem_date rosterDB 2 1 2 "2024-01-10" 0 0
    (fun _ _ _ => List.length_filter_le _ _)

/-! ## C3: one registry row per date -/

/-- C3. `AddDailyChallenge` for a date that already has a row returns without
error and leaves the registry and the other tables as they are, so every
lookup by date answers as before. And when the date has no row yet and the
first `PostDailyChallenge` selects `problem` with the counter at `n`, then
after a second `PostDailyChallenge` for the same date the registry is as the
first call left it and has exactly one row for the date, with the first
call's problem and day number; the lookup for the date answers as after the
first call; and the second call returns no error when the pool still holds
an unused problem. -/
theorem registry_keeps_first_row (db : DB) (challenge : DailyChallenge)
    (hdup : ∃ c ∈ db.daily_challenges, c.Date = challenge.Date)
    (b : Bot) (r1 r2 : Nat) (today longDate1 longDate2 : String) (problem : Problem) (n : Int)
    (hfresh : ¬ ∃ c ∈ b.db.daily_challenges, c.Date = today)
    (hsel : GetRandomUnusedProblem b.db r1 = .ok problem)
    (hctr : b.db.challenge_counter = some n) :
    (∃ db1, AddDailyChallenge db challenge = .ok db1 ∧
      db1.daily_challenges = db.daily_challenges ∧ db1.problems = db.problems ∧
      db1.users = db.users ∧ db1.submissions = db.submissions ∧
      db1.challenge_counter = db.challenge_counter ∧
      ∀ date, GetTodaysChallengeWithDay db1 date = GetTodaysChallengeWithDay db date) ∧
    (PostDailyChallenge b r1 today longDate1).1 = none ∧
    (PostDailyChallenge b r1 today longDate1).2.sent =
      b.sent ++ [(b.config.TelegramGroupID, challengeText (wrapInt64 (n + 1)) longDate1 problem)] ∧
    (PostDailyChallenge (PostDailyChallenge b r1 today longDate1).2 r2 today
        longDate2).2.db.daily_challenges =
      (PostDailyChallenge b r1 today longDate1).2.db.daily_challenges ∧
    (∃ rowID, (PostDailyChallenge (PostDailyChallenge b r1 today longDate1).2 r2 today
        longDate2).2.db.daily_challenges.filter (fun c => c.Date = today) =
      [{ ID := rowID, ProblemID := problem.ID, Date := today,
         DayNumber := wrapInt64 (n + 1) }]) ∧
    GetTodaysChallengeWithDay
        (PostDailyChallenge (PostDailyChallenge b r1 today longDate1).2 r2 today longDate2).2.db
        today =
      GetTodaysChallengeWithDay (PostDailyChallenge b r1 today longDate1).2.db today ∧
    ((∃ p ∈ b.db.problems, p.Used = false ∧ p.ID ≠ problem.ID) →
      (PostDailyChallenge (PostDailyChallenge b r1 today longDate1).2 r2 today
        longDate2).1 = none) := by
  have h1 := postDailyChallenge_of_counter b r1 today longDate1 problem n hsel hctr
  simp only [hfresh, if_false] at h1
  have hposted : ∃ c ∈ (PostDailyChallenge b r1 today longDate1).2.db.daily_challenges,
      c.Date = today := by
    rw [h1]
    exact ⟨_, List.mem_append_right _ (List.mem_singleton_self _), rfl⟩
  have h2 := postDailyChallenge_registry_of_posted (PostDailyChallenge b r1 today longDate1).2
    r2 today longDate2 hposted
  have hfil : b.db.daily_challenges.filter (fun c => c.Date = today) = [] := by
    rw [List.filter_eq_nil_iff]
    intro c hc hd
    exact hfresh ⟨c, hc, by simpa using hd⟩
  refine ⟨?_, by rw [h1], by rw [h1], h2, ?_, ?_, ?_⟩
  · exact ⟨{ db with daily_challenges_seq :=
        (nextRowID db.daily_challenges_seq (db.daily_challenges.map (fun c => c.ID))) },
      by simp only [AddDailyChallenge, hdup, if_true], rfl, rfl, rfl, rfl, rfl, fun _ => rfl⟩
  · refine ⟨nextRowID b.db.daily_challenges_seq (b.db.daily_challenges.map (fun c => c.ID)), ?_⟩
    rw [h2, h1]
    simp only [List.filter_append, hfil, List.nil_append]
    simp
  · generalize hb1 : (PostDailyChallenge b r1 today longDate1).2 = b1 at h2 ⊢
    unfold GetTodaysChallengeWithDay
    cases hsel2 : GetRandomUnusedProblem b1.db r2 with
    | error err => rw [postDailyChallenge_of_select_error b1 r2 today longDate2 err hsel2]
    | ok problem2 =>
      have hrows : challengeRows (PostDailyChallenge b1 r2 today longDate2).2.db today =
          challengeRows b1.db today := by
        apply challengeRows_of_marked _ _ problem2.ID today _ h2
        cases hctr2 : b1.db.challenge_counter with
        | none => rw [postDailyChallenge_of_counter_missing b1 r2 today longDate2 problem2 hsel2 hctr2]
        | some n2 => rw [postDailyChallenge_of_counter b1 r2 today longDate2 problem2 n2 hsel2 hctr2]
      rw [hrows]
  · rintro ⟨p, hp, hunused, hne⟩
    have hpool2 : ∃ q ∈ (PostDailyChallenge b r1 today longDate1).2.db.problems,
        q.Used = false := by
      rw [h1]
      refine ⟨p, ?_, hunused⟩
      show p ∈ b.db.problems.map
        (fun p => if p.ID = problem.ID then { p with Used := true } else p)
      rw [List.mem_map]
      exact ⟨p, hp, by simp only [hne, if_false]⟩
    obtain ⟨problem2, hsel2⟩ := getRandomUnusedProblem_of_unused _ r2 hpool2
    have hctr2 : (PostDailyChallenge b r1 today longDate1).2.db.challenge_counter =
        some (wrapInt64 (n + 1)) := by rw [h1]
    rw [postDailyChallenge_of_counter _ r2 today longDate2 problem2 _ hsel2 hctr2]

/-- C3 at `postedDB` (a second row for 2024-01-10 is ignored) and at
`twoProblemBot`: the first post for 2024-01-11 selects problem 1 and takes
day 10, the second selects problem 2, reaches the ignored insert and returns
no error, and the registry keeps the single row of the first post. -/
theorem registry_keeps_first_row_witness :
    (∃ db1, AddDailyChallenge postedDB
        { ID := 0, ProblemID := 2, Date := "2024-01-10", DayNumber := 11 } = .ok db1 ∧
      db1.daily_challenges = postedDB.daily_challenges ∧ db1.problems = postedDB.problems ∧
      db1.users = postedDB.users ∧ db1.submissions = postedDB.submissions ∧
      db1.challenge_counter = postedDB.challenge_counter ∧
      ∀ date, GetTodaysChallengeWithDay db1 date = GetTodaysChallengeWithDay postedDB date) ∧
    (PostDailyChallenge twoProblemBot 0 "2024-01-11" "January 11, 2024").1 = none ∧
    (PostDailyChallenge twoProblemBot 0 "2024-01-11" "January 11, 2024").2.sent =
      twoProblemBot.sent ++ [(twoProblemBot.config.TelegramGroupID,
        challengeText (wrapInt64 (9 + 1)) "January 11, 2024" { twoSum with Used := false })] ∧
    (PostDailyChallenge (PostDailyChallenge twoProblemBot 0 "2024-01-11" "January 11, 2024").2 0
        "2024-01-11" "January 11, 2024").2.db.daily_challenges =
      (PostDailyChallenge twoProblemBot 0 "2024-01-11"
        "January 11, 2024").2.db.daily_challenges ∧
    (∃ rowID, (PostDailyChallenge
        (PostDailyChallenge twoProblemBot 0 "2024-01-11" "January 11, 2024").2 0
        "2024-01-11" "January 11, 2024").2.db.daily_challenges.filter
        (fun c => c.Date = "2024-01-11") =
      [{ ID := rowID, ProblemID := (({ twoSum with Used := false } : Problem)).ID,
         Date := "2024-01-11", DayNumber := wrapInt64 (9 + 1) }]) ∧
    GetTodaysChallengeWithDay
        (PostDailyChallenge (PostDailyChallenge twoProblemBot 0 "2024-01-11"
          "January 11, 2024").2 0 "2024-01-11" "January 11, 2024").2.db "2024-01-11" =
      GetTodaysChallengeWithDay
        (PostDailyChallenge twoProblemBot 0 "2024-01-11" "January 11, 2024").2.db
        "2024-01-11" ∧
    ((∃ p ∈ twoProblemBot.db.problems,
        p.Used = false ∧ p.ID ≠ (({ twoSum with Used := false } : Problem)).ID) →
      (PostDailyChallenge (PostDailyChallenge twoProblemBot 0 "2024-01-11"
        "January 11, 2024").2 0 "2024-01-11" "January 11, 2024").1 = none) :=
  registry_keeps_first_row postedDB
    { ID := 0, ProblemID := 2, Date := "2024-01-10", DayNumber := 11 } (by decide)
    twoProblemBot 0 0 "2024-01-11" "January 11, 2024" "January 11, 2024"
    { twoSum with Used := false } 9 (by decide) rfl rfl

/-! ## C4: a second post for the same date -/

/-- C4, as stated, fails: in `postedDB` the date 2024-01-10 has a registry row
and a problem is unused; `PostDailyChallenge` for that date returns no error,
but the day counter goes from 10 to 11. -/
theorem duplicate_post_moves_counter :
    (∃ c ∈ postedBot.db.daily_challenges, c.Date = "2024-01-10") ∧
    (∃ p ∈ postedBot.db.problems, p.Used = false) ∧
    (PostDailyChallenge postedBot 0 "2024-01-10" "January 10, 2024").1 = none ∧
    GetCurrentDayNumber postedBot.db = (10, none) ∧
    GetCurrentDayNumber (PostDailyChallenge postedBot 0 "2024-01-10" "January 10, 2024").2.db
      = (11, none) ∧
    GetCurrentDayNumber (PostDailyChallenge postedBot 0 "2024-01-10" "January 10, 2024").2.db
      ≠ GetCurrentDayNumber postedBot.db := by
  refine ⟨by decide, by decide, rfl, rfl, rfl, by decide⟩

/-- C4, amended. A `PostDailyChallenge` for a date that already has a registry
row, with an unused problem in the pool and the counter at `n` (below the
largest 64-bit value), returns no error and leaves the registry as it is, but
it does take a day number: the counter afterwards is `n + 1`. -/
theorem duplicate_post_keeps_registry_increments_counter (b : Bot) (r : Nat)
    (today longDate : String) (n : Int)
    (hdup : ∃ c ∈ b.db.daily_challenges, c.Date = today)
    (hpool : ∃ p ∈ b.db.problems, p.Used = false)
    (hctr : GetCurrentDayNumber b.db = (n, none))
    (hlo : -9223372036854775808 ≤ n) (hhi : n < 9223372036854775807) :
    (PostDailyChallenge b r today longDate).1 = none ∧
    (PostDailyChallenge b r today longDate).2.db.daily_challenges = b.db.daily_challenges ∧
    GetCurrentDayNumber (PostDailyChallenge b r today longDate).2.db = (n + 1, none) := by
  obtain ⟨problem, hsel⟩ := getRandomUnusedProblem_of_unused b.db r hpool
  have hc : b.db.challenge_counter = some n := by
    unfold GetCurrentDayNumber at hctr
    cases hcc : b.db.challenge_counter with
    | none => rw [hcc] at hctr; cases hctr
    | some m => rw [hcc] at hctr; cases hctr; rfl
  have h1 := postDailyChallenge_of_counter b r today longDate problem n hsel hc
  refine ⟨by rw [h1], postDailyChallenge_registry_of_posted b r today longDate hdup, ?_⟩
  rw [h1, wrapInt64_of_range (n + 1) (by omega) (by omega)]
  rfl

/-- C4, amended, at `postedBot` on 2024-01-10. -/
theorem duplicate_post_keeps_registry_increments_counter_witness :
    (PostDailyChallenge postedBot 0 "2024-01-10" "January 10, 2024").1 = none ∧
    (PostDailyChallenge postedBot 0 "2024-01-10" "January 10, 2024").2.db.daily_challenges
      = postedBot.db.daily_challenges ∧
    GetCurrentDayNumber (PostDailyChallenge postedBot 0 "2024-01-10" "January 10, 2024").2.db
      = (10 + 1, none) :=
  duplicate_post_keeps_registry_increments_counter postedBot 0 "2024-01-10" "January 10, 2024"
    10 (by decide) (by decide) rfl (by decide) (by decide)

/-! ## C5: reset, then post -/

/-- C5. Whatever the counter value `n`, when the pool has an unused problem
and the date has no registry row, `ResetDayNumber` followed by
`PostDailyChallenge` gives day number 9: `IncrementDayNumber` returns 9, the
post returns no error, announces day 9, and the row registered for the date
carries the selected problem and day number 9. -/
theorem reset_then_post_is_day_nine (b : Bot) (r : Nat) (today longDate : String) (n : Int)
    (hpool : ∃ p ∈ b.db.problems, p.Used = false)
    (hfresh : ¬ ∃ c ∈ b.db.daily_challenges, c.Date = today)
    (hctr : b.db.challenge_counter = some n) :
    ∃ db1 problem db2 db3,
      ResetDayNumber b.db = .ok db1 ∧
      GetRandomUnusedProblem db1 r = .ok problem ∧
      MarkProblemAsUsed db1 problem.ID = .ok db2 ∧
      IncrementDayNumber db2 = .ok (9, db3) ∧
      (PostDailyChallenge { b with db := db1 } r today longDate).1 = none ∧
      (PostDailyChallenge { b with db := db1 } r today longDate).2.sent =
        b.sent ++ [(b.config.TelegramGroupID, challengeText 9 longDate problem)] ∧
      (∃ rowID,
        (PostDailyChallenge { b with db := db1 } r today longDate).2.db.daily_challenges.filter
            (fun c => c.Date = today) =
          [{ ID := rowID, ProblemID := problem.ID, Date := today, DayNumber := 9 }]) ∧
      GetCurrentDayNumber (PostDailyChallenge { b with db := db1 } r today longDate).2.db =
        (9, none) := by
  have hpool1 : ∃ p ∈ ({ b.db with challenge_counter := some 8 } : DB).problems,
      p.Used = false := hpool
  obtain ⟨problem, hsel⟩ := getRandomUnusedProblem_of_unused _ r hpool1
  have h9 : wrapInt64 (8 + 1) = 9 := by decide
  have h1 := postDailyChallenge_of_counter
    { b with db := { b.db with challenge_counter := some 8 } } r today longDate problem 8 hsel rfl
  simp only [hfresh, if_false, h9] at h1
  have hfil : b.db.daily_challenges.filter (fun c => c.Date = today) = [] := by
    rw [List.filter_eq_nil_iff]
    intro c hc hd
    exact hfresh ⟨c, hc, by simpa using hd⟩
  refine ⟨{ b.db with challenge_counter := some 8 }, problem,
    { b.db with
      problems := (b.db.problems.map
        (fun p => if p.ID = problem.ID then { p with Used := true } else p)),
      challenge_counter := some 8 },
    { b.db with
      problems := (b.db.problems.map
        (fun p => if p.ID = problem.ID then { p with Used := true } else p)),
      challenge_counter := some 9 },
    ?_, hsel, rfl, ?_, ?_, ?_, ?_, ?_⟩
  · simp only [ResetDayNumber, hctr, Option.map_some']
  · simp only [IncrementDayNumber, h9]
  · rw [h1]
  · rw [h1]
  · refine ⟨nextRowID b.db.daily_challenges_seq (b.db.daily_challenges.map (fun c => c.ID)), ?_⟩
    rw [h1]
    simp only [List.filter_append, hfil, List.nil_append]
    simp
  · rw [h1]
    rfl

/-- C5 at `postedBot` (counter 10) for 2024-01-11. -/
theorem reset_then_post_is_day_nine_witness :
    ∃ db1 problem db2 db3,
      ResetDayNumber postedBot.db = .ok db1 ∧
      GetRandomUnusedProblem db1 0 = .ok problem ∧
      MarkProblemAsUsed db1 problem.ID = .ok db2 ∧
      IncrementDayNumber db2 = .ok (9, db3) ∧
      (PostDailyChallenge { postedBot with db := db1 } 0 "2024-01-11" "January 11, 2024").1
        = none ∧
      (PostDailyChallenge { postedBot with db := db1 } 0 "2024-01-11" "January 11, 2024").2.sent =
        postedBot.sent ++
          [(postedBot.config.TelegramGroupID, challengeText 9 "January 11, 2024" problem)] ∧
      (∃ rowID,
        (PostDailyChallenge { postedBot with db := db1 } 0 "2024-01-11"
            "January 11, 2024").2.db.daily_challenges.filter
            (fun c => c.Date = "2024-01-11") =
          [{ ID := rowID, ProblemID := problem.ID, Date := "2024-01-11", DayNumber := 9 }]) ∧
      GetCurrentDayNumber (PostDailyChallenge { postedBot with db := db1 } 0 "2024-01-11"
          "January 11, 2024").2.db = (9, none) :=
  reset_then_post_is_day_nine postedBot 0 "2024-01-11" "January 11, 2024" 10
    (by decide) (by decide) rfl

/-! ## C6: the first day number of a new store -/

/-- C6, evaluated. On a store that `createTables` has just initialised, with
the one-problem catalogue loaded, the first `PostDailyChallenge` returns no
error and registers day number 10 (the counter starts at 9 and is incremented
before use), not 9. -/
theorem first_post_on_new_store_is_day_ten :
    (freshBot { TelegramGroupID := -100 }).db.challenge_counter = some 9 ∧
    (PostDailyChallenge
        (step (freshBot { TelegramGroupID := -100 }) (.LoadProblemsFromYAML smallCatalogue))
        0 "2024-01-10" "January 10, 2024").1 = none ∧
    (PostDailyChallenge
        (step (freshBot { TelegramGroupID := -100 }) (.LoadProblemsFromYAML smallCatalogue))
        0 "2024-01-10" "January 10, 2024").2.db.daily_challenges =
      [{ ID := 1, ProblemID := 1, Date := "2024-01-10", DayNumber := 10 }] := by
  refine ⟨rfl, rfl, by decide⟩

/-- On every store whose counter row was just created by `createTables`, a
`PostDailyChallenge` that finds an unused problem takes day number 10. -/
theorem first_post_after_createTables (db0 db : DB) (config : Config) (r : Nat)
    (today longDate : String)
    (h0 : db0.challenge_counter = none) (hinit : createTables db0 = .ok db)
    (hpool : ∃ p ∈ db.problems, p.Used = false) :
    (PostDailyChallenge { db := db, config := config, sent := [] } r today
        longDate).2.db.challenge_counter = some 10 := by
  have hc : db.challenge_counter = some 9 := by
    unfold createTables at hinit
    rw [h0] at hinit
    cases hinit
    rfl
  obtain ⟨problem, hsel⟩ := getRandomUnusedProblem_of_unused db r hpool
  have h10 : wrapInt64 (9 + 1) = 10 := by decide
  rw [postDailyChallenge_of_counter { db := db, config := config, sent := [] } r today longDate
    problem 9 hsel hc, h10]

/-! ## C7: the frame of `ResetDayNumber` -/

/-- C7. `ResetDayNumber` returns without error, leaves the tables `problems`,
`users`, `submissions` and `daily_challenges` as they are, so every lookup by
date answers as before, and sets the day counter to 8. -/
theorem resetDayNumber_changes_only_counter (db : DB) (n : Int)
    (hctr : db.challenge_counter = some n) :
    ∃ db1, ResetDayNumber db = .ok db1 ∧
      db1.problems = db.problems ∧ db1.users = db.users ∧
      db1.submissions = db.submissions ∧ db1.daily_challenges = db.daily_challenges ∧
      (∀ date, GetTodaysChallengeWithDay db1 date = GetTodaysChallengeWithDay db date) ∧
      GetCurrentDayNumber db1 = (8, none) := by
  refine ⟨{ db with challenge_counter := some 8 }, ?_, rfl, rfl, rfl, rfl, fun _ => rfl, rfl⟩
  simp only [ResetDayNumber, hctr, Option.map_some']

/-- C7 at `postedDB`, whose counter is 10. -/
theorem resetDayNumber_changes_only_counter_witness :
    ∃ db1, ResetDayNumber postedDB = .ok db1 ∧
      db1.problems = postedDB.problems ∧ db1.users = postedDB.users ∧
      db1.submissions = postedDB.submissions ∧
      db1.daily_challenges = postedDB.daily_challenges ∧
      (∀ date, GetTodaysChallengeWithDay db1 date = GetTodaysChallengeWithDay postedDB date) ∧
      GetCurrentDayNumber db1 = (8, none) :=
  resetDayNumber_changes_only_counter postedDB 10 rfl

/-! ## C8: selection returns unused problems only -/

/-- C8. Whatever the random choice `r`: a problem returned by
`GetRandomUnusedProblem` is a row of the pool with `used = false`; the call
returns an error exactly when no row has `used = false`; every unused row is
returned for some choice; and in a pool of two unused problems, after two
rounds of selecting and marking, the third selection fails. -/
theorem getRandomUnusedProblem_unused_or_error (db : DB) (r : Nat)
    (db0 : DB) (p q : Problem) (r1 r2 r3 : Nat)
    (hpool : db0.problems = [p, q]) (hp : p.Used = false) (hq : q.Used = false)
    (hpq : p.ID ≠ q.ID) :
    (∀ x, GetRandomUnusedProblem db r = .ok x → x ∈ db.problems ∧ x.Used = false) ∧
    ((∃ err, GetRandomUnusedProblem db r = .error err) ↔
      ¬ ∃ x ∈ db.problems, x.Used = false) ∧
    (∀ x ∈ db.problems, x.Used = false → ∃ r0, GetRandomUnusedProblem db r0 = .ok x) ∧
    (∃ x y db1 db2,
      GetRandomUnusedProblem db0 r1 = .ok x ∧ MarkProblemAsUsed db0 x.ID = .ok db1 ∧
      GetRandomUnusedProblem db1 r2 = .ok y ∧ MarkProblemAsUsed db1 y.ID = .ok db2 ∧
      GetRandomUnusedProblem db2 r3 = .error ErrNoRows) := by
  refine ⟨getRandomUnusedProblem_ok_mem db r, ?_, ?_, ?_⟩
  · constructor
    · rintro ⟨err, herr⟩ hex
      obtain ⟨x, hx⟩ := getRandomUnusedProblem_of_unused db r hex
      rw [hx] at herr
      cases herr
    · intro hno
      exact ⟨_, getRandomUnusedProblem_of_all_used db r hno⟩
  · intro x hx hu
    have hmem : x ∈ db.problems.filter (fun p => p.Used = false) := by
      rw [List.mem_filter]
      exact ⟨hx, by simpa using hu⟩
    obtain ⟨i, hi, hget⟩ := List.getElem_of_mem hmem
    refine ⟨i, ?_⟩
    unfold GetRandomUnusedProblem
    simp only [Nat.mod_eq_of_lt hi, List.getElem?_eq_getElem hi, hget]
    cases x
    simp_all
  · have hp0 : ({ p with Used := false } : Problem) = p := by
      cases p
      simp_all
    have hq0 : ({ q with Used := false } : Problem) = q := by
      cases q
      simp_all
    have hqp : q.ID ≠ p.ID := fun h => hpq h.symm
    rcases Nat.mod_two_eq_zero_or_one r1 with h | h
    · refine ⟨p, q, _, _, ?_, rfl, ?_, rfl, ?_⟩
      · simp [GetRandomUnusedProblem, hpool, hp, hq, h, hp0]
      · simp [GetRandomUnusedProblem, hpool, hp, hq, hqp, Nat.mod_one, hq0]
      · simp [GetRandomUnusedProblem, hpool, hp, hq, hqp, hpq, ErrNoRows]
    · refine ⟨q, p, _, _, ?_, rfl, ?_, rfl, ?_⟩
      · simp [GetRandomUnusedProblem, hpool, hp, hq, h, hq0]
      · simp [GetRandomUnusedProblem, hpool, hp, hq, hpq, Nat.mod_one, hp0]
      · simp [GetRandomUnusedProblem, hpool, hp, hq, hqp, hpq, ErrNoRows]

/-- C8 at `postedDB` (one unused problem) and `twoProblemDB`. -/
theorem getRandomUnusedProblem_unused_or_error_witness :
    (∀ x, GetRandomUnusedProblem postedDB 5 = .ok x → x ∈ postedDB.problems ∧ x.Used = false) ∧
    ((∃ err, GetRandomUnusedProblem postedDB 5 = .error err) ↔
      ¬ ∃ x ∈ postedDB.problems, x.Used = false) ∧
    (∀ x ∈ postedDB.problems, x.Used = false →
      ∃ r0, GetRandomUnusedProblem postedDB r0 = .ok x) ∧
    (∃ x y db1 db2,
      GetRandomUnusedProblem twoProblemDB 4 = .ok x ∧
      MarkProblemAsUsed twoProblemDB x.ID = .ok db1 ∧
      GetRandomUnusedProblem db1 1 = .ok y ∧ MarkProblemAsUsed db1 y.ID = .ok db2 ∧
      GetRandomUnusedProblem db2 0 = .error ErrNoRows) :=
  getRandomUnusedProblem_unused_or_error postedDB 5 twoProblemDB
    { twoSum with Used := false } validAnagram 4 1 0 rfl rfl rfl (by decide)

/-! ## C9: problems are not repeated -/

/-- C9. In every sequential run `ops` of the store operations from any state,
every row of `problems` is kept at its position with the same id, title, url
and category, and a row that was used is still used afterwards. And when a
`PostDailyChallenge` selects `problem1`, then after any further run `ops2` a
`PostDailyChallenge` that passes its selection step selects a problem with a
different id. -/
theorem used_problems_stay_used (b : Bot) (ops : List Op)
    (b0 : Bot) (r1 r2 : Nat) (today1 longDate1 : String) (ops2 : List Op)
    (problem1 problem2 : Problem)
    (hsel1 : GetRandomUnusedProblem b0.db r1 = .ok problem1)
    (hsel2 : GetRandomUnusedProblem
      (run (PostDailyChallenge b0 r1 today1 longDate1).2 ops2).db r2 = .ok problem2) :
    poolKept b.db.problems (run b ops).db.problems ∧ problem2.ID ≠ problem1.ID := by
  refine ⟨poolKept_of_chain _ _ (run_pool b ops), ?_⟩
  have hmem := (getRandomUnusedProblem_ok_mem b0.db r1 problem1 hsel1).1
  have hpost : consumed (PostDailyChallenge b0 r1 today1 longDate1).2.db.problems problem1.ID := by
    rcases postDailyChallenge_problems b0 r1 today1 longDate1 with ⟨err, he, -⟩ | ⟨p, hp, h⟩
    · rw [hsel1] at he
      cases he
    · rw [hsel1] at hp
      cases hp
      rw [h]
      exact consumed_after_mark _ _ hmem
  have hlater := consumed_of_chain _ _ problem1.ID
    (run_pool (PostDailyChallenge b0 r1 today1 longDate1).2 ops2) hpost
  obtain ⟨hmem2, hunused⟩ := getRandomUnusedProblem_ok_mem _ r2 problem2 hsel2
  intro hid
  have := hlater.2 problem2 hmem2 hid
  rw [hunused] at this
  cases this

/-- C9 on `postedBot` (a run that resets, loads a catalogue and takes a
submission) and on `twoProblemDB` (two posts, a reset in between). -/
theorem used_problems_stay_used_witness :
    poolKept postedBot.db.problems
      (run postedBot [.ResetDayNumber, .LoadProblemsFromYAML smallCatalogue,
        .PostDailyChallenge 0 "2024-01-11" "January 11, 2024",
        .handleSubmitCommand aliceMessage "2024-01-11"]).db.problems ∧
    validAnagram.ID ≠ (({ twoSum with Used := false } : Problem)).ID :=
  used_problems_stay_used postedBot
    [.ResetDayNumber, .LoadProblemsFromYAML smallCatalogue,
      .PostDailyChallenge 0 "2024-01-11" "January 11, 2024",
      .handleSubmitCommand aliceMessage "2024-01-11"]
    { db := twoProblemDB, config := { TelegramGroupID := -100 }, sent := [] }
    0 7 "2024-01-10" "January 10, 2024" [.ResetDayNumber]
    { twoSum with Used := false } validAnagram rfl rfl

/-! ## C10: no submission before a challenge is posted -/

/-- C10, as stated, fails: in `orphanRowDB` the registry has no row for
2024-01-11, but the ledger holds a row of user 7 for that date; the `/submit`
of user 7 is answered with "already submitted", not with "No challenge
available", because the handler looks at the ledger before it looks up the
challenge. -/
theorem submit_with_orphan_row_says_already :
    (¬ ∃ c ∈ orphanRowDB.daily_challenges, c.Date = "2024-01-11") ∧
    (handleSubmitCommand { postedBot with db := orphanRowDB } aliceMessage "2024-01-11").sent =
      [(-100, alreadySubmittedText)] ∧
    (handleSubmitCommand { postedBot with db := orphanRowDB } aliceMessage "2024-01-11").sent ≠
      [(-100, noChallengeText)] := by
  refine ⟨by decide, rfl, by decide⟩

/-- C10, amended. When the registry has no row for `today`, a `/submit` adds
no row: the store is left as it is. The reply is "No challenge available for
today yet" when the sender has no ledger row for `today`, and "already
submitted" when the ledger holds one. -/
theorem submit_without_challenge_adds_no_row (b : Bot) (message : Message) (today : String)
    (hnone : ¬ ∃ c ∈ b.db.daily_challenges, c.Date = today) :
    (handleSubmitCommand b message today).db = b.db ∧
    (handleSubmitCommand b message today).db.submissions = b.db.submissions ∧
    ((¬ ∃ s ∈ b.db.submissions, s.UserID = message.From.ID ∧ s.Date = today) →
      (handleSubmitCommand b message today).sent =
        b.sent ++ [(message.Chat.ID, noChallengeText)]) ∧
    ((∃ s ∈ b.db.submissions, s.UserID = message.From.ID ∧ s.Date = today) →
      (handleSubmitCommand b message today).sent =
        b.sent ++ [(message.Chat.ID, alreadySubmittedText)]) := by
  have hno : ∀ (h : ¬ ∃ s ∈ b.db.submissions, s.UserID = message.From.ID ∧ s.Date = today),
      handleSubmitCommand b message today = sendMessage b message.Chat.ID noChallengeText :=
    fun h => handleSubmitCommand_noChallenge b message today h
      (challengeRows_eq_nil_of_no_row b.db today hnone)
  have hdb : (handleSubmitCommand b message today).db = b.db := by
    by_cases h : ∃ s ∈ b.db.submissions, s.UserID = message.From.ID ∧ s.Date = today
    · rw [handleSubmitCommand_already b message today h]
      rfl
    · rw [hno h]
      rfl
  refine ⟨hdb, by rw [hdb], ?_, ?_⟩
  · intro h
    rw [hno h]
    rfl
  · intro h
    rw [handleSubmitCommand_already b message today h]
    rfl

/-- C10, amended, at `postedBot` on 2024-01-11, a date without a challenge and
without a ledger row of user 7. -/
theorem submit_without_challenge_adds_no_row_witness :
    (handleSubmitCommand postedBot aliceMessage "2024-01-11").db = postedBot.db ∧
    (handleSubmitCommand postedBot aliceMessage "2024-01-11").db.submissions =
      postedBot.db.submissions ∧
    ((¬ ∃ s ∈ postedBot.db.submissions, s.UserID = aliceMessage.From.ID ∧
        s.Date = "2024-01-11") →
      (handleSubmitCommand postedBot aliceMessage "2024-01-11").sent =
        postedBot.sent ++ [(aliceMessage.Chat.ID, noChallengeText)]) ∧
    ((∃ s ∈ postedBot.db.submissions, s.UserID = aliceMessage.From.ID ∧
        s.Date = "2024-01-11") →
      (handleSubmitCommand postedBot aliceMessage "2024-01-11").sent =
        postedBot.sent ++ [(aliceMessage.Chat.ID, alreadySubmittedText)]) :=
  submit_without_challenge_adds_no_row postedBot aliceMessage "2024-01-11" (by decide)

/-! ## C11: the users to remind -/

/-- C11. `GetUsersWhoDidntSubmitToday` returns the roster minus the users with
a ledger row for the date: a sublist of the `users` table (so in roster
order), holding exactly the users without a submission for the date, each as
often as the roster holds it. The caller `SendReminder` leaves the store as
it is. For the roster U1, U2, U3 with only U1 submitted on 2024-01-10 the
result is U2, U3. -/
theorem nonResponders_is_roster_minus_submitters (b : Bot) (date : String) (currentHour : Nat) :
    GetUsersWhoDidntSubmitToday b.db date =
      .ok (NonResponders date b.db.users b.db.submissions) ∧
    (NonResponders date b.db.users b.db.submissions).Sublist b.db.users ∧
    (∀ u, u ∈ NonResponders date b.db.users b.db.submissions ↔
      u ∈ b.db.users ∧ ¬ ∃ s ∈ b.db.submissions, s.UserID = u.ID ∧ s.Date = date) ∧
    (∀ u ∈ NonResponders date b.db.users b.db.submissions,
      (NonResponders date b.db.users b.db.submissions).count u = b.db.users.count u) ∧
    (SendReminder b date currentHour).2.db = b.db ∧
    GetUsersWhoDidntSubmitToday rosterDB "2024-01-10" = .ok [userU2, userU3] := by
  refine ⟨?_, List.filter_sublist _, ?_, ?_, ?_, rfl⟩
  · unfold GetUsersWhoDidntSubmitToday NonResponders
    apply congrArg Except.ok
    apply List.filter_congr
    intro u _
    rw [decide_eq_decide, List.mem_dedup, List.mem_map]
    constructor
    · rintro h ⟨s, hs, hu, hd⟩
      exact h ⟨s, List.mem_filter.mpr ⟨hs, by simpa using hd⟩, hu⟩
    · rintro h ⟨s, hs, hu⟩
      rw [List.mem_filter] at hs
      exact h ⟨s, hs.1, hu, by simpa using hs.2⟩
  · intro u
    unfold NonResponders
    simp only [List.mem_filter, decide_eq_true_eq]
  · intro u hu
    unfold NonResponders at hu ⊢
    rw [List.mem_filter] at hu
    exact List.count_filter hu.2
  · unfold SendReminder
    split
    · rfl
    · split
      · rfl
      · split <;> rfl

/-! ## C12: the leaderboard -/

/-- C12. Under the primary key of `users` and for a limit `>= 0`,
`GetLeaderboard` returns the first `limit` entries of a list that holds the
entry of every `users` row (users without submissions included, with count 0)
and is sorted by count descending, then first name ascending; so the result
has `min limit (number of users)` entries and is sorted in that order. In
`rankDB` (A: 5, B: 5, C: 2, "Alice" before "Bob") the result for limit 3 is
A, B, C. -/
theorem leaderboard_sorted_and_cut (db : DB) (limit : Int)
    (hpk : usersUnique db.users) (hlimit : 0 ≤ limit) :
    (∃ entries full : List LeaderboardEntry,
      GetLeaderboard db limit = .ok entries ∧
      full.Perm (db.users.map (entryOf db)) ∧ full.Sorted leaderboardOrder ∧
      entries = full.take limit.toNat ∧
      entries.length = min limit.toNat db.users.length ∧
      entries.Sorted leaderboardOrder) ∧
    GetLeaderboard rankDB 3 = .ok
      [{ UserID := 3, Username := "alice", FirstName := "Alice", LastName := "", TotalSolved := 5 },
       { UserID := 2, Username := "bob", FirstName := "Bob", LastName := "", TotalSolved := 5 },
       { UserID := 1, Username := "carol", FirstName := "Carol", LastName := "",
         TotalSolved := 2 }] := by
  constructor
  · refine ⟨_, (leaderboardGroups db).insertionSort leaderboardOrder,
      getLeaderboard_eq db limit hlimit, ?_, List.sorted_insertionSort _ _, rfl, ?_, ?_⟩
    · rw [← leaderboardGroups_eq db hpk]
      exact List.perm_insertionSort _ _
    · rw [List.length_take, List.length_insertionSort, leaderboardGroups_eq db hpk,
        List.length_map]
    · exact (List.sorted_insertionSort leaderboardOrder _).sublist (List.take_sublist _ _)
  · have hg : leaderboardGroups rankDB =
        [{ UserID := 1, Username := "carol", FirstName := "Carol", LastName := "",
           TotalSolved := 2 },
         { UserID := 2, Username := "bob", FirstName := "Bob", LastName := "", TotalSolved := 5 },
         { UserID := 3, Username := "alice", FirstName := "Alice", LastName := "",
           TotalSolved := 5 }] := rfl
    rw [getLeaderboard_eq rankDB 3 (by decide), hg]
    simp [List.insertionSort, List.orderedInsert, leaderboardOrder, bob_not_le_alice]

/-- C12 at `rankDB` with limit 2. -/
theorem leaderboard_sorted_and_cut_witness :
    (∃ entries full : List LeaderboardEntry,
      GetLeaderboard rankDB 2 = .ok entries ∧
      full.Perm (rankDB.users.map (entryOf rankDB)) ∧ full.Sorted leaderboardOrder ∧
      entries = full.take (2 : Int).toNat ∧
      entries.length = min (2 : Int).toNat rankDB.users.length ∧
      entries.Sorted leaderboardOrder) ∧
    GetLeaderboard rankDB 3 = .ok
      [{ UserID := 3, Username := "alice", FirstName := "Alice", LastName := "", TotalSolved := 5 },
       { UserID := 2, Username := "bob", FirstName := "Bob", LastName := "", TotalSolved := 5 },
       { UserID := 1, Username := "carol", FirstName := "Carol", LastName := "",
         TotalSolved := 2 }] :=
  leaderboard_sorted_and_cut rankDB 2 (by unfold usersUnique; decide) (by decide)

/-! ## C13: what the leaderboard counts -/

/-- C13, as stated, fails: the ledger of `twoRowsDB` satisfies
`UNIQUE(user_id, problem_id, date)` and holds two rows of user 7 for
2024-01-10 (problems 1 and 2); `GetLeaderboard` reports 2 for user 7, who has
one distinct date. -/
theorem totalSolved_counts_rows_not_dates :
    submissionsUnique twoRowsDB.submissions ∧ usersUnique twoRowsDB.users ∧
    GetLeaderboard twoRowsDB 10 = .ok
      [{ UserID := 7, Username := "alice", FirstName := "Alice", LastName := "",
         TotalSolved := 2 }] ∧
    distinctDates twoRowsDB 7 = 1 := by
  refine ⟨?_, by unfold usersUnique; decide, rfl, by decide⟩
  intro userID problemID date
  unfold rowsOfUserProblemDate
  by_cases h1 : (1 : Int) = problemID
  · have h2 : ¬ (2 : Int) = problemID := by omega
    simp [twoRowsDB, ledgerRow, List.filter_cons, h2]
    split <;> simp
  · simp [twoRowsDB, ledgerRow, List.filter_cons, h1]
    split <;> simp

/-- C13, amended. Under the primary key of `users`, the `TotalSolved` that
`GetLeaderboard` reports in the entry of a user is the number of ledger rows
of that user. The number of distinct dates of the user is at most that, and
equal to it exactly when the user has at most one ledger row per date. -/
theorem totalSolved_is_row_count (db : DB) (limit : Int) (entries : List LeaderboardEntry)
    (e : LeaderboardEntry) (hpk : usersUnique db.users)
    (hres : GetLeaderboard db limit = .ok entries) (he : e ∈ entries) :
    e.TotalSolved = submissionCount db e.UserID ∧
    distinctDates db e.UserID ≤ submissionCount db e.UserID ∧
    (distinctDates db e.UserID = submissionCount db e.UserID ↔
      ∀ date, rowsOfUserDate db.submissions e.UserID date ≤ 1) := by
  obtain ⟨u, -, rfl⟩ := getLeaderboard_mem db limit entries hpk hres e he
  exact ⟨rfl, distinctDates_le db _, distinctDates_eq_iff db _⟩

/-- C13, amended, at `twoRowsDB`: user 7 is reported with 2. -/
theorem totalSolved_is_row_count_witness :
    (2 : Int) = submissionCount twoRowsDB 7 ∧
    distinctDates twoRowsDB 7 ≤ submissionCount twoRowsDB 7 ∧
    (distinctDates twoRowsDB 7 = submissionCount twoRowsDB 7 ↔
      ∀ date, rowsOfUserDate twoRowsDB.submissions 7 date ≤ 1) :=
  totalSolved_is_row_count twoRowsDB 10
    [{ UserID := 7, Username := "alice", FirstName := "Alice", LastName := "", TotalSolved := 2 }]
    { UserID := 7, Username := "alice", FirstName := "Alice", LastName := "", TotalSolved := 2 }
    (by unfold usersUnique; decide) rfl (List.mem_singleton_self _)

/-! ## C14: commands that `handleMessage` does not know -/

/-- C14, as stated, fails: on a new store the unknown command `/foo` of user 7
gets the "Unknown command" reply, but the store is not as it was: the `users`
table has gained the row of user 7. -/
theorem unknown_command_saves_sender :
    (handleMessage (freshBot { TelegramGroupID := -100 }) fooMessage 0 "2024-01-10"
        "January 10, 2024" 9).sent = [(-100, unknownCommandText)] ∧
    (freshBot { TelegramGroupID := -100 }).db.users = [] ∧
    (handleMessage (freshBot { TelegramGroupID := -100 }) fooMessage 0 "2024-01-10"
        "January 10, 2024" 9).db.users =
      [{ ID := 7, Username := "alice", FirstName := "Alice", LastName := "" }] ∧
    (handleMessage (freshBot { TelegramGroupID := -100 }) fooMessage 0 "2024-01-10"
        "January 10, 2024" 9).db ≠ (freshBot { TelegramGroupID := -100 }).db := by
  refine ⟨rfl, rfl, rfl, by decide⟩

/-- C14, amended. For a command message whose command name is none of
submit, leaderboards, help, manual, testreminder, status, resetday,
`handleMessage` sends the "Unknown command" reply and nothing else, and the
store afterwards is the result of `AddUser` for the sender: `problems`,
`submissions`, `daily_challenges` and the day counter are exactly as they
were, and `users` has the sender's row added or replaced. -/
theorem unknown_command_changes_users_only (b : Bot) (message : Message) (r : Nat)
    (today longDate : String) (currentHour : Nat)
    (hcmd : message.IsCommand = true)
    (hunknown : message.Command ∉
      ["submit", "leaderboards", "help", "manual", "testreminder", "status", "resetday"]) :
    (handleMessage b message r today longDate currentHour).sent =
      b.sent ++ [(message.Chat.ID, unknownCommandText)] ∧
    AddUser b.db { ID := message.From.ID, Username := message.From.UserName,
                   FirstName := message.From.FirstName, LastName := message.From.LastName } =
      .ok (handleMessage b message r today longDate currentHour).db ∧
    (handleMessage b message r today longDate currentHour).db.problems = b.db.problems ∧
    (handleMessage b message r today longDate currentHour).db.submissions = b.db.submissions ∧
    (handleMessage b message r today longDate currentHour).db.daily_challenges =
      b.db.daily_challenges ∧
    (handleMessage b message r today longDate currentHour).db.challenge_counter =
      b.db.challenge_counter ∧
    (handleMessage b message r today longDate currentHour).db.users =
      insertByRowID
        { ID := message.From.ID, Username := message.From.UserName,
          FirstName := message.From.FirstName, LastName := message.From.LastName }
        (b.db.users.filter (fun v => v.ID ≠ message.From.ID)) := by
  simp only [List.mem_cons, List.mem_singleton, List.mem_nil_iff, or_false, not_or] at hunknown
  obtain ⟨h1, h2, h3, h4, h5, h6, h7⟩ := hunknown
  have hm : handleMessage b message r today longDate currentHour =
      sendMessage (b.withDB (AddUser b.db
        { ID := message.From.ID, Username := message.From.UserName,
          FirstName := message.From.FirstName, LastName := message.From.LastName }))
        message.Chat.ID unknownCommandText := by
    simp only [handleMessage, hcmd, h1, h2, h3, h4, h5, h6, h7, if_true, if_false]
  rw [hm]
  exact ⟨rfl, rfl, rfl, rfl, rfl, rfl, rfl⟩

/-- C14, amended, at `postedBot` with the command `/foo`. -/
theorem unknown_command_changes_users_only_witness :
    (handleMessage postedBot fooMessage 0 "2024-01-10" "January 10, 2024" 9).sent =
      postedBot.sent ++ [(fooMessage.Chat.ID, unknownCommandText)] ∧
    AddUser postedBot.db
        { ID := fooMessage.From.ID, Username := fooMessage.From.UserName,
          FirstName := fooMessage.From.FirstName, LastName := fooMessage.From.LastName } =
      .ok (handleMessage postedBot fooMessage 0 "2024-01-10" "January 10, 2024" 9).db ∧
    (handleMessage postedBot fooMessage 0 "2024-01-10" "January 10, 2024" 9).db.problems =
      postedBot.db.problems ∧
    (handleMessage postedBot fooMessage 0 "2024-01-10" "January 10, 2024" 9).db.submissions =
      postedBot.db.submissions ∧
    (handleMessage postedBot fooMessage 0 "2024-01-10" "January 10, 2024"
        9).db.daily_challenges = postedBot.db.daily_challenges ∧
    (handleMessage postedBot fooMessage 0 "2024-01-10" "January 10, 2024"
        9).db.challenge_counter = postedBot.db.challenge_counter ∧
    (handleMessage postedBot fooMessage 0 "2024-01-10" "January 10, 2024" 9).db.users =
      insertByRowID
        { ID := fooMessage.From.ID, Username := fooMessage.From.UserName,
          FirstName := fooMessage.From.FirstName, LastName := fooMessage.From.LastName }
        (postedBot.db.users.filter (fun v => v.ID ≠ fooMessage.From.ID)) :=
  unknown_command_changes_users_only postedBot fooMessage 0 "2024-01-10" "January 10, 2024" 9
    rfl (by decide)

/-! ## C15: who may run the admin commands -/

/-- C15. When the sender id and the chat id of `denied` both differ from the
configured group id, `handleResetDayCommand` and `handleManualCommand` only
send the "main group" rejection and leave the bot, and so the whole store,
as it was. When the chat id of `allowed` is the group id, `/resetday`
installs the result of `ResetDayNumber` and confirms it, and `/manual` leaves
the store of `PostDailyChallenge` and reports its outcome. -/
theorem admin_commands_only_from_group (b : Bot) (denied allowed : Message) (r : Nat)
    (today longDate : String)
    (hfrom : denied.From.ID ≠ b.config.TelegramGroupID)
    (hchat : denied.Chat.ID ≠ b.config.TelegramGroupID)
    (hgroup : allowed.Chat.ID = b.config.TelegramGroupID) :
    handleResetDayCommand b denied = sendMessage b denied.Chat.ID groupOnlyText ∧
    (handleResetDayCommand b denied).db = b.db ∧
    handleManualCommand b denied r today longDate = sendMessage b denied.Chat.ID groupOnlyText ∧
    (handleManualCommand b denied r today longDate).db = b.db ∧
    ResetDayNumber b.db = .ok (handleResetDayCommand b allowed).db ∧
    (handleResetDayCommand b allowed).sent = b.sent ++ [(allowed.Chat.ID,
      "✅ Day counter reset successfully! Next challenge will be Day 9.")] ∧
    (handleManualCommand b allowed r today longDate).db =
      (PostDailyChallenge b r today longDate).2.db ∧
    (handleManualCommand b allowed r today longDate).sent.getLast? =
      some (allowed.Chat.ID,
        match (PostDailyChallenge b r today longDate).1 with
        | some err => "❌ Error posting manual challenge: " ++ err
        | none => "✅ Manual challenge posted successfully!") := by
  have hdenied : denied.From.ID ≠ b.config.TelegramGroupID ∧
      denied.Chat.ID ≠ b.config.TelegramGroupID := ⟨hfrom, hchat⟩
  have hallowed : ¬ (allowed.From.ID ≠ b.config.TelegramGroupID ∧
      allowed.Chat.ID ≠ b.config.TelegramGroupID) := fun h => h.2 hgroup
  have hr1 : handleResetDayCommand b denied = sendMessage b denied.Chat.ID groupOnlyText := by
    unfold handleResetDayCommand
    rw [if_pos hdenied]
  have hm1 : handleManualCommand b denied r today longDate =
      sendMessage b denied.Chat.ID groupOnlyText := by
    unfold handleManualCommand
    rw [if_pos hdenied]
  have hr2 : handleResetDayCommand b allowed =
      sendMessage { b with db := { b.db with
          challenge_counter := b.db.challenge_counter.map (fun _ => 8) } }
        allowed.Chat.ID "✅ Day counter reset successfully! Next challenge will be Day 9." := by
    unfold handleResetDayCommand
    rw [if_neg hallowed]
    rfl
  obtain ⟨hm2, hm3⟩ := handleManualCommand_of_allowed b allowed r today longDate hallowed
  refine ⟨hr1, by rw [hr1]; rfl, hm1, by rw [hm1]; rfl, by rw [hr2]; rfl, by rw [hr2]; rfl,
    hm2, hm3⟩

/-- C15 at `postedBot` (group -100): `privateMessage` comes from user 7 in
chat 7, `aliceMessage` from the group chat. -/
theorem admin_commands_only_from_group_witness :
    handleResetDayCommand postedBot privateMessage =
      sendMessage postedBot privateMessage.Chat.ID groupOnlyText ∧
    (handleResetDayCommand postedBot privateMessage).db = postedBot.db ∧
    handleManualCommand postedBot privateMessage 0 "2024-01-11" "January 11, 2024" =
      sendMessage postedBot privateMessage.Chat.ID groupOnlyText ∧
    (handleManualCommand postedBot privateMessage 0 "2024-01-11" "January 11, 2024").db =
      postedBot.db ∧
    ResetDayNumber postedBot.db = .ok (handleResetDayCommand postedBot aliceMessage).db ∧
    (handleResetDayCommand postedBot aliceMessage).sent = postedBot.sent ++
      [(aliceMessage.Chat.ID,
        "✅ Day counter reset successfully! Next challenge will be Day 9.")] ∧
    (handleManualCommand postedBot aliceMessage 0 "2024-01-11" "January 11, 2024").db =
      (PostDailyChallenge postedBot 0 "2024-01-11" "January 11, 2024").2.db ∧
    (handleManualCommand postedBot aliceMessage 0 "2024-01-11"
        "January 11, 2024").sent.getLast? =
      some (aliceMessage.Chat.ID,
        match (PostDailyChallenge postedBot 0 "2024-01-11" "January 11, 2024").1 with
        | some err => "❌ Error posting manual challenge: " ++ err
        | none => "✅ Manual challenge posted successfully!") :=
  admin_commands_only_from_group postedBot privateMessage aliceMessage 0 "2024-01-11"
    "January 11, 2024" (by decide) (by decide) rfl

/-! ## C16: posting from an exhausted pool -/

/-- C16. When no problem has `used = false`, `PostDailyChallenge` returns the
error "failed to get random problem" (wrapping `sql.ErrNoRows`) and leaves the
bot as it was: the store is unchanged (no problem marked, counter not
incremented, no registry row) and no message is sent. -/
theorem post_fails_fast_on_exhausted_pool (b : Bot) (r : Nat) (today longDate : String)
    (hpool : ¬ ∃ p ∈ b.db.problems, p.Used = false) :
    (PostDailyChallenge b r today longDate).1 =
      some ("failed to get random problem: " ++ ErrNoRows) ∧
    (PostDailyChallenge b r today longDate).2.db = b.db ∧
    (PostDailyChallenge b r today longDate).2.sent = b.sent ∧
    (PostDailyChallenge b r today longDate).2 = b := by
  rw [postDailyChallenge_of_select_error b r today longDate ErrNoRows
    (getRandomUnusedProblem_of_all_used b.db r hpool)]
  exact ⟨rfl, rfl, rfl, rfl⟩

/-- C16 on `exhaustedDB`, where both problems are used. -/
theorem post_fails_fast_on_exhausted_pool_witness :
    (PostDailyChallenge { postedBot with db := exhaustedDB } 3 "2024-01-12"
        "January 12, 2024").1 = some ("failed to get random problem: " ++ ErrNoRows) ∧
    (PostDailyChallenge { postedBot with db := exhaustedDB } 3 "2024-01-12"
        "January 12, 2024").2.db = exhaustedDB ∧
    (PostDailyChallenge { postedBot with db := exhaustedDB } 3 "2024-01-12"
        "January 12, 2024").2.sent = postedBot.sent ∧
    (PostDailyChallenge { postedBot with db := exhaustedDB } 3 "2024-01-12"
        "January 12, 2024").2 = { postedBot with db := exhaustedDB } :=
  post_fails_fast_on_exhausted_pool { postedBot with db := exhaustedDB } 3 "2024-01-12"
    "January 12, 2024" (by decide)

/-! ## C17: marking a problem -/

/-- C17. `MarkProblemAsUsed` returns without error; afterwards every row with
the given id has `used = true` and its other fields as before, every row with
another id is exactly as before, at the same position, and the other tables
are unchanged; a second call returns without error and leaves the store of
the first call. -/
theorem markProblemAsUsed_idempotent (db : DB) (problemID : Int) :
    ∃ db1, MarkProblemAsUsed db problemID = .ok db1 ∧
      MarkProblemAsUsed db1 problemID = .ok db1 ∧
      db1.problems.length = db.problems.length ∧
      (∀ (i : Nat) (p : Problem), db.problems[i]? = some p → p.ID ≠ problemID →
        db1.problems[i]? = some p) ∧
      (∀ (i : Nat) (p : Problem), db.problems[i]? = some p → p.ID = problemID →
        db1.problems[i]? = some { p with Used := true }) ∧
      (∀ q ∈ db1.problems, q.ID = problemID → q.Used = true) ∧
      db1.users = db.users ∧ db1.submissions = db.submissions ∧
      db1.daily_challenges = db.daily_challenges ∧
      db1.challenge_counter = db.challenge_counter := by
  refine ⟨{ db with problems := (db.problems.map
      (fun p => if p.ID = problemID then { p with Used := true } else p)) }, rfl, ?_, ?_, ?_, ?_,
    ?_, rfl, rfl, rfl, rfl⟩
  · unfold MarkProblemAsUsed
    simp only [List.map_map]
    congr 2
    apply List.map_congr_left
    intro p _
    by_cases h : p.ID = problemID <;> simp [h]
  · simp only [List.length_map]
  · intro i p hp hne
    simp only [List.getElem?_map, hp, Option.map_some', hne, if_false]
  · intro i p hp heq
    simp only [List.getElem?_map, hp, Option.map_some', heq, if_true]
  · intro q hq hid
    obtain ⟨p, -, rfl⟩ := List.mem_map.mp hq
    by_cases h : p.ID = problemID
    · simp only [h, if_true]
    · simp only [h, if_false] at hid

/-! ## C18: incrementing the day counter -/

/-- C18, as stated, fails at the largest 64-bit counter value: Go's
`currentDay + 1` wraps, so with the counter at 9223372036854775807 the
transaction succeeds and `IncrementDayNumber` returns and stores
-9223372036854775808, which is not `n + 1`. -/
theorem increment_wraps_at_max :
    GetCurrentDayNumber maxCounterDB = (9223372036854775807, none) ∧
    IncrementDayNumber maxCounterDB =
      .ok (-9223372036854775808,
           { maxCounterDB with challenge_counter := some (-9223372036854775808) }) ∧
    IncrementDayNumberTx maxCounterDB none =
      (.ok (-9223372036854775808),
       { maxCounterDB with challenge_counter := some (-9223372036854775808) }) ∧
    (-9223372036854775808 : Int) ≠ 9223372036854775807 + 1 := by
  refine ⟨rfl, ?_, ?_, by decide⟩
  · have h : wrapInt64 (9223372036854775807 + 1) = -9223372036854775808 := by decide
    simp only [IncrementDayNumber, maxCounterDB, h]
  · have h : wrapInt64 (9223372036854775807 + 1) = -9223372036854775808 := by decide
    simp only [IncrementDayNumberTx, maxCounterDB, h]

/-- C18, amended. With the counter at a 64-bit value `n` below the largest
one, `IncrementDayNumber` on a store that works returns `n + 1`, and
`GetCurrentDayNumber` then returns `n + 1`; `k` successive increments with
`n + k` within 64 bits return `n + 1, ..., n + k`, no value twice; and when
one of the calls of the transaction fails, the error is returned and the
store, and so the counter, is as before. -/
theorem increment_returns_next_day (db : DB) (n : Int) (k : Nat) (fault : TxStep × String)
    (hctr : db.challenge_counter = some n)
    (hlo : -9223372036854775808 ≤ n) (hhi : n < 9223372036854775807)
    (hk : n + k ≤ 9223372036854775807) :
    (∃ db1, IncrementDayNumber db = .ok (n + 1, db1) ∧
      IncrementDayNumberTx db none = (.ok (n + 1), db1) ∧
      GetCurrentDayNumber db1 = (n + 1, none)) ∧
    (incrementTimes k db).1 = (List.range k).map (fun i : Nat => n + 1 + (i : Int)) ∧
    (incrementTimes k db).1.Nodup ∧
    GetCurrentDayNumber (incrementTimes k db).2 = (n + k, none) ∧
    IncrementDayNumberTx db (some fault) = (.error fault.2, db) ∧
    GetCurrentDayNumber (IncrementDayNumberTx db (some fault)).2 = (n, none) := by
  have h1 := incrementDayNumber_of_counter db n hctr hlo hhi
  obtain ⟨h2, h3⟩ := incrementTimes_values k db n hctr hlo hk
  have hf : IncrementDayNumberTx db (some fault) = (.error fault.2, db) := by
    obtain ⟨fstep, err⟩ := fault
    unfold IncrementDayNumberTx
    cases fstep <;> simp only [hctr]
  refine ⟨⟨_, h1, ?_, rfl⟩, h2, ?_, ?_, hf, ?_⟩
  · rw [incrementDayNumberTx_none, h1]
  · rw [h2]
    apply List.Nodup.map _ (List.nodup_range k)
    intro i j hij
    simp only at hij
    omega
  · unfold GetCurrentDayNumber
    rw [h3]
  · rw [hf]
    unfold GetCurrentDayNumber
    rw [hctr]

/-- C18, amended, at `postedDB` (counter 10): three increments, and a commit
that fails with "database is locked". -/
theorem increment_returns_next_day_witness :
    (∃ db1, IncrementDayNumber postedDB = .ok (10 + 1, db1) ∧
      IncrementDayNumberTx postedDB none = (.ok (10 + 1), db1) ∧
      GetCurrentDayNumber db1 = (10 + 1, none)) ∧
    (incrementTimes 3 postedDB).1 = (List.range 3).map (fun i : Nat => 10 + 1 + (i : Int)) ∧
    (incrementTimes 3 postedDB).1.Nodup ∧
    GetCurrentDayNumber (incrementTimes 3 postedDB).2 = ((10 : Int) + ((3 : Nat) : Int), none) ∧
    IncrementDayNumberTx postedDB (some (TxStep.Commit, "database is locked")) =
      (.error (TxStep.Commit, "database is locked").2, postedDB) ∧
    GetCurrentDayNumber
      (IncrementDayNumberTx postedDB (some (TxStep.Commit, "database is locked"))).2 =
      (10, none) :=
  increment_returns_next_day postedDB 10 3 (TxStep.Commit, "database is locked") rfl
    (by decide) (by decide) (by decide)

end LeetcodeBot
